import Mathlib

/-!
Verification of the configlang Python wrapper (`configlang/configlang.py`)
together with the configuration-language engine it binds to.

The repository contains only the boundary wrapper; the engine itself is an
opaque native library.  The wrapper code is embedded directly from
`configlang.py`; all engine-level semantics (lexer, parser, evaluator,
variable store, serializer) are modelled from the design specification and
each such definition is marked `Modelled from the spec:`.
-/

set_option maxHeartbeats 1000000

namespace ConfigLangProof

/-! ## Status codes (from `configlang.py`, lines 22-31) -/

def ERR_CFG_OK : Int := 0
def ERR_CFG_NULL_POINTER : Int := -1
def ERR_CFG_FILE_ERROR : Int := -2
def ERR_CFG_PARSE_ERROR : Int := -3
def ERR_CFG_VARIABLE_NOT_FOUND : Int := -4
def ERR_CFG_CONST_VIOLATION : Int := -5
def ERR_CFG_OUT_OF_MEMORY : Int := -6
def ERR_CFG_TYPE_MISMATCH : Int := -7
def ERR_CFG_UNKNOWN_ERROR : Int := -8

/-- Modelled from the spec: the engine-side error taxonomy of section 7
(the engine source is not in the repository). `lexError` and `parseError`
are both surfaced through the single PARSE_ERROR status. -/
inductive ErrKind
  | lexError
  | parseError
  | varNotFound
  | constViolation
  | typeMismatch
  | fileError
  | outOfMemory
  | unknownError
deriving DecidableEq, Repr

/-- Modelled from the spec: the stable integer status code the engine
returns for each error kind (section 6 status table). -/
def engineStatus : ErrKind → Int
  | .lexError => -3
  | .parseError => -3
  | .varNotFound => -4
  | .constViolation => -5
  | .typeMismatch => -7
  | .fileError => -2
  | .outOfMemory => -6
  | .unknownError => -8

/-! ## Python exception model (from `configlang.py`, lines 34-56)

The wrapper declares `ConfigLangError(Exception)` and four subclasses.
`TypeError` is the Python builtin, raised by `__setitem__`. -/

/-- A raised Python exception: its class together with its message. -/
inductive PyExc
  | configLangError (msg : String)
  | parseError (msg : String)
  | variableNotFoundError (msg : String)
  | constViolationError (msg : String)
  | typeMismatchError (msg : String)
  | typeError (msg : String)
deriving DecidableEq, Repr

/-- The message string an exception carries. -/
def PyExc.message : PyExc → String
  | .configLangError m => m
  | .parseError m => m
  | .variableNotFoundError m => m
  | .constViolationError m => m
  | .typeMismatchError m => m
  | .typeError m => m

/-- The Python classes involved in the wrapper's exception handling. -/
inductive PyClass
  | exception
  | configLangError
  | parseError
  | variableNotFoundError
  | constViolationError
  | typeMismatchError
  | typeError
deriving DecidableEq, Repr

/-- The direct base class of each class, as declared in the code:
`class ConfigLangError(Exception)`, `class ParseError(ConfigLangError)`,
and so on; `TypeError` is a builtin deriving from `Exception`. -/
def PyClass.base : PyClass → Option PyClass
  | .exception => none
  | .configLangError => some .exception
  | .parseError => some .configLangError
  | .variableNotFoundError => some .configLangError
  | .constViolationError => some .configLangError
  | .typeMismatchError => some .configLangError
  | .typeError => some .exception

/-- The ancestor chain (class itself first), following `PyClass.base`. -/
def PyClass.ancestors : PyClass → List PyClass
  | .exception => [.exception]
  | .configLangError => [.configLangError, .exception]
  | .parseError => [.parseError, .configLangError, .exception]
  | .variableNotFoundError => [.variableNotFoundError, .configLangError, .exception]
  | .constViolationError => [.constViolationError, .configLangError, .exception]
  | .typeMismatchError => [.typeMismatchError, .configLangError, .exception]
  | .typeError => [.typeError, .exception]

/-- Python `issubclass`: membership in the ancestor chain. -/
def PyClass.isSubclassOf (a b : PyClass) : Bool := b ∈ a.ancestors

/-- The class of a raised exception. -/
def PyExc.cls : PyExc → PyClass
  | .configLangError _ => .configLangError
  | .parseError _ => .parseError
  | .variableNotFoundError _ => .variableNotFoundError
  | .constViolationError _ => .constViolationError
  | .typeMismatchError _ => .typeMismatchError
  | .typeError _ => .typeError

/-- Python `isinstance(e, C)`: the exception's class is a subclass of C. -/
def PyExc.isInstanceOf (e : PyExc) (c : PyClass) : Bool :=
  e.cls.isSubclassOf c

/-! ## Error translation (from `configlang.py`, `_check_error`, lines 195-219)

The Python method raises; we model it as returning `Option PyExc`:
`none` for status `ERR_CFG_OK`, otherwise the exception raised.  The
`error_msg` argument is the engine's last-error message, which the real
method fetches with `self.get_error()` after the failing call. -/

def check_error (error_code : Int) (error_msg : String) : Option PyExc :=
  if error_code = ERR_CFG_OK then none
  else if error_code = ERR_CFG_PARSE_ERROR then some (.parseError error_msg)
  else if error_code = ERR_CFG_VARIABLE_NOT_FOUND then
    some (.variableNotFoundError error_msg)
  else if error_code = ERR_CFG_CONST_VIOLATION then
    some (.constViolationError error_msg)
  else if error_code = ERR_CFG_TYPE_MISMATCH then
    some (.typeMismatchError error_msg)
  else
    some (.configLangError ("Error " ++ toString error_code ++ ": " ++ error_msg))

/-! ## Engine data model

Modelled from the spec, section 3: the engine source is not in the
repository. -/

/-- Modelled from the spec: a Value is a tagged union of an integer and an
owned string. -/
inductive Value
  | int (n : Int)
  | str (s : String)
deriving DecidableEq, Repr

/-- Modelled from the spec: a Variable is a name, a value and a const flag. -/
structure EnvEntry where
  name : String
  value : Value
  isConst : Bool
deriving DecidableEq, Repr

/-- Modelled from the spec: the Environment is an insertion-ordered mapping
from variable name to Variable; we keep it as the ordered list of entries. -/
abbrev Env := List EnvEntry

/-- Lookup of a variable by name (first matching entry). -/
def Env.lookupVar (env : Env) (name : String) : Option EnvEntry :=
  env.find? (fun e => e.name == name)

/-- Modelled from the spec: overwriting the value (and const qualifier) of an
existing variable keeps its position in the insertion order. -/
def Env.overwrite (env : Env) (name : String) (v : Value) (c : Bool) : Env :=
  env.map (fun e => if e.name == name then ⟨name, v, c⟩ else e)

/-- Modelled from the spec: one engine instance owns one Environment and an
instance-scoped last-error message. -/
structure EngineState where
  env : Env
  lastError : String
deriving DecidableEq, Repr

/-- A freshly created engine instance: empty environment. -/
def initState : EngineState := ⟨[], ""⟩

/-! ## Engine variable-access API (spec section 4.4 / 6)

Each operation returns the stable integer status code and the updated
engine state (the state carries the last-error message, overwritten by
every fallible call and cleared on success). -/

/-- Modelled from the spec: `cfg_get_int` — VariableNotFound if absent,
TypeMismatch if the stored kind is not integer, else the stored integer. -/
def cfg_get_int (st : EngineState) (name : String) :
    Int × Option Int × EngineState :=
  match st.env.lookupVar name with
  | none =>
      (engineStatus .varNotFound, none,
        { st with lastError := "Variable not found: " ++ name })
  | some e =>
      match e.value with
      | .str _ =>
          (engineStatus .typeMismatch, none,
            { st with lastError := "Type mismatch: " ++ name ++ " is not an integer" })
      | .int n => (ERR_CFG_OK, some n, { st with lastError := "" })

/-- Modelled from the spec: `cfg_get_string` — symmetric to `cfg_get_int`. -/
def cfg_get_string (st : EngineState) (name : String) :
    Int × Option String × EngineState :=
  match st.env.lookupVar name with
  | none =>
      (engineStatus .varNotFound, none,
        { st with lastError := "Variable not found: " ++ name })
  | some e =>
      match e.value with
      | .int _ =>
          (engineStatus .typeMismatch, none,
            { st with lastError := "Type mismatch: " ++ name ++ " is not a string" })
      | .str s => (ERR_CFG_OK, some s, { st with lastError := "" })

/-- Modelled from the spec: `cfg_set_int` — VariableNotFound if absent (the
external API never creates variables), ConstViolation if const,
TypeMismatch if the stored kind is not integer (the external set never
retypes), else overwrite the stored integer value. -/
def cfg_set_int (st : EngineState) (name : String) (v : Int) :
    Int × EngineState :=
  match st.env.lookupVar name with
  | none =>
      (engineStatus .varNotFound,
        { st with lastError := "Variable not found: " ++ name })
  | some e =>
      if e.isConst then
        (engineStatus .constViolation,
          { st with lastError := "Cannot modify const variable: " ++ name })
      else
        match e.value with
        | .str _ =>
            (engineStatus .typeMismatch,
              { st with lastError := "Type mismatch: " ++ name ++ " is not an integer" })
        | .int _ =>
            (ERR_CFG_OK,
              { env := st.env.overwrite name (.int v) false, lastError := "" })

/-! ## Lexer

Modelled from the spec, section 4.1: `tokenize(source) -> sequence of Token`,
skipping whitespace, recognizing identifiers/keywords, integer and string
literals (double-quoted, with backslash escapes for quote and backslash),
comparison operators, `=` and braces; it fails on an unterminated string
literal or an unrecognized character.  The lexer is written as a
character-at-a-time state machine so that it is structurally recursive. -/

/-- Modelled from the spec: the token alphabet of section 3. -/
inductive Token
  | ident (s : String)
  | intLit (n : Int)
  | strLit (s : String)
  | kwSet
  | kwConst
  | kwIf
  | opAssign
  | opLt
  | opGt
  | opLe
  | opGe
  | opEq
  | opNe
  | lbrace
  | rbrace
deriving DecidableEq, Repr

/-- Lexer failure. -/
inductive LexErr
  | unterminatedString
  | badChar (c : Char)
  | badEscape
deriving DecidableEq, Repr

def isWS (c : Char) : Bool := c == ' ' || c == '\t' || c == '\n' || c == '\r'

/-- ASCII letter. -/
def isAlphaCh (c : Char) : Bool :=
  (65 ≤ c.toNat && c.toNat ≤ 90) || (97 ≤ c.toNat && c.toNat ≤ 122)

/-- ASCII digit. -/
def isDigitCh (c : Char) : Bool := 48 ≤ c.toNat && c.toNat ≤ 57

def isIdentStart (c : Char) : Bool := isAlphaCh c || c == '_'

def isIdentChar (c : Char) : Bool := isAlphaCh c || isDigitCh c || c == '_'

def digitVal (c : Char) : Nat := c.toNat - 48

/-- Keywords are recognized when an identifier-shaped lexeme ends. -/
def keywordOrIdent (s : String) : Token :=
  if s = "set" then .kwSet
  else if s = "const" then .kwConst
  else if s = "if" then .kwIf
  else .ident s

def identToken (acc : List Char) : Token := keywordOrIdent (String.mk acc)

def numToken (neg : Bool) (v : Nat) : Token :=
  .intLit (if neg then -(v : Int) else (v : Int))

/-- The intra-token state of the lexer. -/
inductive LexMode
  | normal
  | inIdent (acc : List Char)
  | inNum (neg : Bool) (v : Nat)
  | inStr (acc : List Char)
  | inStrEsc (acc : List Char)
  | afterEq
  | afterLt
  | afterGt
  | afterBang
  | afterMinus
deriving DecidableEq, Repr

/-- Lexer state: tokens emitted so far plus the intra-token mode. -/
structure LexSt where
  toks : List Token
  mode : LexMode
deriving DecidableEq, Repr

/-- Processing one character from the token boundary. -/
def stepNormal (toks : List Token) (c : Char) : Except LexErr LexSt :=
  if isWS c then .ok ⟨toks, .normal⟩
  else if isIdentStart c then .ok ⟨toks, .inIdent [c]⟩
  else if isDigitCh c then .ok ⟨toks, .inNum false (digitVal c)⟩
  else if c = '-' then .ok ⟨toks, .afterMinus⟩
  else if c = '"' then .ok ⟨toks, .inStr []⟩
  else if c = '{' then .ok ⟨toks ++ [.lbrace], .normal⟩
  else if c = '}' then .ok ⟨toks ++ [.rbrace], .normal⟩
  else if c = '=' then .ok ⟨toks, .afterEq⟩
  else if c = '<' then .ok ⟨toks, .afterLt⟩
  else if c = '>' then .ok ⟨toks, .afterGt⟩
  else if c = '!' then .ok ⟨toks, .afterBang⟩
  else .error (.badChar c)

/-- Processing one character in any lexer state. -/
def lexStep (st : LexSt) (c : Char) : Except LexErr LexSt :=
  match st.mode with
  | .normal => stepNormal st.toks c
  | .inIdent acc =>
      if isIdentChar c then .ok ⟨st.toks, .inIdent (acc ++ [c])⟩
      else stepNormal (st.toks ++ [identToken acc]) c
  | .inNum neg v =>
      if isDigitCh c then .ok ⟨st.toks, .inNum neg (v * 10 + digitVal c)⟩
      else stepNormal (st.toks ++ [numToken neg v]) c
  | .inStr acc =>
      if c = '"' then .ok ⟨st.toks ++ [.strLit (String.mk acc)], .normal⟩
      else if c = '\\' then .ok ⟨st.toks, .inStrEsc acc⟩
      else if c = '\n' then .error .unterminatedString
      else .ok ⟨st.toks, .inStr (acc ++ [c])⟩
  | .inStrEsc acc =>
      if c = '"' || c = '\\' then .ok ⟨st.toks, .inStr (acc ++ [c])⟩
      else .error .badEscape
  | .afterEq =>
      if c = '=' then .ok ⟨st.toks ++ [.opEq], .normal⟩
      else stepNormal (st.toks ++ [.opAssign]) c
  | .afterLt =>
      if c = '=' then .ok ⟨st.toks ++ [.opLe], .normal⟩
      else stepNormal (st.toks ++ [.opLt]) c
  | .afterGt =>
      if c = '=' then .ok ⟨st.toks ++ [.opGe], .normal⟩
      else stepNormal (st.toks ++ [.opGt]) c
  | .afterBang =>
      if c = '=' then .ok ⟨st.toks ++ [.opNe], .normal⟩
      else .error (.badChar '!')
  | .afterMinus =>
      if isDigitCh c then .ok ⟨st.toks, .inNum true (digitVal c)⟩
      else .error (.badChar '-')

/-- Running the lexer state machine over a character list. -/
def lexFold (st : LexSt) : List Char → Except LexErr LexSt
  | [] => .ok st
  | c :: cs =>
      match lexStep st c with
      | .error e => .error e
      | .ok st2 => lexFold st2 cs

/-- Flushing the final state at end of input. -/
def lexFinish (st : LexSt) : Except LexErr (List Token) :=
  match st.mode with
  | .normal => .ok st.toks
  | .inIdent acc => .ok (st.toks ++ [identToken acc])
  | .inNum neg v => .ok (st.toks ++ [numToken neg v])
  | .inStr _ => .error .unterminatedString
  | .inStrEsc _ => .error .unterminatedString
  | .afterEq => .ok (st.toks ++ [.opAssign])
  | .afterLt => .ok (st.toks ++ [.opLt])
  | .afterGt => .ok (st.toks ++ [.opGt])
  | .afterBang => .error (.badChar '!')
  | .afterMinus => .error (.badChar '-')

/-- Modelled from the spec: `tokenize(source)` of section 4.1. -/
def tokenize (source : String) : Except LexErr (List Token) :=
  match lexFold ⟨[], .normal⟩ source.data with
  | .error e => .error e
  | .ok st => lexFinish st

/-! ## Parser

Modelled from the spec, section 4.2: recursive descent over the token
stream following the grammar

    program    := statement*
    statement  := ("const")? "set" IDENT "=" expr
                | "if" comparison "(LBRACE)" statement* "(RBRACE)"
    expr       := INT_LITERAL | STRING_LITERAL | IDENT
    comparison := expr COMPARE_OP expr

The recursion is driven by a fuel parameter; `parseProgram` supplies
`tokens.length + 1`, which can never run out because every statement
consumes at least one token. -/

/-- Modelled from the spec: right-hand-side expressions (section 3). -/
inductive Expr
  | intLit (n : Int)
  | strLit (s : String)
  | var (x : String)
deriving DecidableEq, Repr

/-- Modelled from the spec: the comparison operators. -/
inductive CmpOp
  | lt
  | gt
  | le
  | ge
  | eq
  | ne
deriving DecidableEq, Repr

/-- Modelled from the spec: `Comparison`: `Expr <op> Expr`. -/
structure Comparison where
  lhs : Expr
  op : CmpOp
  rhs : Expr
deriving DecidableEq, Repr

/-- Modelled from the spec: the statement variants. -/
inductive Stmt
  | assign (name : String) (isConst : Bool) (value : Expr)
  | cond (c : Comparison) (body : List Stmt)

/-- Parser failure. -/
inductive ParseErr
  | unexpectedToken
  | unterminatedBlock
  | fuelExhausted
deriving DecidableEq, Repr

/-- One-token expressions. -/
def parseExpr : List Token → Except ParseErr (Expr × List Token)
  | .intLit n :: r => .ok (.intLit n, r)
  | .strLit s :: r => .ok (.strLit s, r)
  | .ident x :: r => .ok (.var x, r)
  | _ => .error .unexpectedToken

/-- The comparison operator denoted by a token, if any. -/
def cmpOpOfToken : Token → Option CmpOp
  | .opLt => some .lt
  | .opGt => some .gt
  | .opLe => some .le
  | .opGe => some .ge
  | .opEq => some .eq
  | .opNe => some .ne
  | _ => none

/-- Three-token comparisons. -/
def parseComparison (ts : List Token) :
    Except ParseErr (Comparison × List Token) :=
  match parseExpr ts with
  | .error e => .error e
  | .ok (l, r1) =>
      match r1 with
      | t :: r2 =>
          match cmpOpOfToken t with
          | some op =>
              match parseExpr r2 with
              | .error e => .error e
              | .ok (r, r3) => .ok (⟨l, op, r⟩, r3)
          | none => .error .unexpectedToken
      | [] => .error .unexpectedToken

mutual

/-- One statement. -/
def parseStmt : Nat → List Token → Except ParseErr (Stmt × List Token)
  | 0, _ => .error .fuelExhausted
  | _ + 1, .kwConst :: .kwSet :: .ident x :: .opAssign :: ts =>
      (match parseExpr ts with
        | .error e => .error e
        | .ok (e, r) => .ok (.assign x true e, r))
  | _ + 1, .kwSet :: .ident x :: .opAssign :: ts =>
      (match parseExpr ts with
        | .error e => .error e
        | .ok (e, r) => .ok (.assign x false e, r))
  | fuel + 1, .kwIf :: ts =>
      (match parseComparison ts with
        | .error e => .error e
        | .ok (c, r) =>
            match r with
            | .lbrace :: r2 =>
                (match parseStmts fuel r2 with
                  | .error e => .error e
                  | .ok (body, r3) =>
                      match r3 with
                      | .rbrace :: r4 => .ok (.cond c body, r4)
                      | _ => .error .unterminatedBlock)
            | _ => .error .unexpectedToken)
  | _ + 1, _ => .error .unexpectedToken

/-- A statement sequence, ending at end of input or a closing brace (which
is left for the caller). -/
def parseStmts : Nat → List Token → Except ParseErr (List Stmt × List Token)
  | 0, _ => .error .fuelExhausted
  | _ + 1, [] => .ok ([], [])
  | _ + 1, .rbrace :: r => .ok ([], .rbrace :: r)
  | fuel + 1, ts =>
      (match parseStmt fuel ts with
        | .error e => .error e
        | .ok (s, r) =>
            match parseStmts fuel r with
            | .error e => .error e
            | .ok (ss, r2) => .ok (s :: ss, r2))

end

/-- Modelled from the spec: `parse(tokens) -> sequence of Statement`; a
whole program must consume the entire token stream. -/
def parseProgram (ts : List Token) : Except ParseErr (List Stmt) :=
  match parseStmts (ts.length + 1) ts with
  | .error e => .error e
  | .ok (ss, []) => .ok ss
  | .ok (_, _ :: _) => .error .unexpectedToken

/-! ## Evaluator

Modelled from the spec, section 4.3: statements are applied in sequence
against the environment; a failed statement aborts the remainder but
already-applied mutations are retained, so execution returns the partial
environment together with an optional error. -/

/-- Resolving a right-hand side (literal or variable lookup). -/
def evalExpr (env : Env) : Expr → Except ErrKind Value
  | .intLit n => .ok (.int n)
  | .strLit s => .ok (.str s)
  | .var x =>
      match env.lookupVar x with
      | some e => .ok e.value
      | none => .error .varNotFound

/-- Integer comparison semantics. -/
def intCmp (op : CmpOp) (a b : Int) : Bool :=
  match op with
  | .lt => a < b
  | .gt => a > b
  | .le => a ≤ b
  | .ge => a ≥ b
  | .eq => a = b
  | .ne => a ≠ b

/-- Modelled from the spec: condition evaluation — both sides must resolve
to values of the same kind; ordering operators are valid only for
integers, strings admit equality and inequality only. -/
def evalCmp (env : Env) (c : Comparison) : Except ErrKind Bool :=
  match evalExpr env c.lhs with
  | .error e => .error e
  | .ok l =>
      match evalExpr env c.rhs with
      | .error e => .error e
      | .ok r =>
          match l, r with
          | .int a, .int b => .ok (intCmp c.op a b)
          | .str a, .str b =>
              match c.op with
              | .eq => .ok (a == b)
              | .ne => .ok (a != b)
              | _ => .error .typeMismatch
          | _, _ => .error .typeMismatch

/-- Modelled from the spec: `load`-driven assignment — if the target exists
and is const, fail with ConstViolation and do not mutate; otherwise insert
(at the end, preserving insertion order) or overwrite in place, setting the
const flag from the statement's qualifier. -/
def assignLoad (env : Env) (name : String) (c : Bool) (v : Value) :
    Except ErrKind Env :=
  match env.lookupVar name with
  | none => .ok (env ++ [⟨name, v, c⟩])
  | some e =>
      if e.isConst then .error .constViolation
      else .ok (env.overwrite name v c)

mutual

/-- Executing one statement. -/
def execStmt (env : Env) : Stmt → Env × Option ErrKind
  | .assign name c val =>
      (match evalExpr env val with
        | .error e => (env, some e)
        | .ok v =>
            match assignLoad env name c v with
            | .error e => (env, some e)
            | .ok env2 => (env2, none))
  | .cond cmp body =>
      (match evalCmp env cmp with
        | .error e => (env, some e)
        | .ok true => execStmts env body
        | .ok false => (env, none))

/-- Executing a statement sequence, retaining partial mutations on error. -/
def execStmts (env : Env) : List Stmt → Env × Option ErrKind
  | [] => (env, none)
  | s :: rest =>
      (match execStmt env s with
        | (env2, none) => execStmts env2 rest
        | (env2, some e) => (env2, some e))

end

/-! ## Serializer

Modelled from the spec, section 4.5: one `set` (or `const set`) line per
variable in insertion order, integers as decimal, strings double-quoted
with escaping of quote and backslash characters. -/

def digitChar (d : Nat) : Char := Char.ofNat (48 + d)

/-- Little-endian decimal digits of a natural number (empty for zero). -/
def renderNatRev : Nat → List Char
  | 0 => []
  | n + 1 => digitChar ((n + 1) % 10) :: renderNatRev ((n + 1) / 10)
decreasing_by exact Nat.div_lt_self (Nat.succ_pos n) (by norm_num)

/-- Decimal rendering of a natural number. -/
def renderNat (n : Nat) : List Char :=
  if n = 0 then ['0'] else (renderNatRev n).reverse

/-- Decimal rendering of an integer. -/
def renderInt (i : Int) : List Char :=
  if i < 0 then '-' :: renderNat (-i).toNat else renderNat i.toNat

/-- Escaping of one string character: quote and backslash are escaped. -/
def escapeChar (c : Char) : List Char :=
  if c = '"' || c = '\\' then ['\\', c] else [c]

def escapeChars : List Char → List Char
  | [] => []
  | c :: cs => escapeChar c ++ escapeChars cs

/-- Canonical literal encoding of a value. -/
def renderValue : Value → List Char
  | .int n => renderInt n
  | .str s => '"' :: (escapeChars s.data ++ ['"'])

/-- One serialized line (newline-terminated) for one variable. -/
def renderEntry (e : EnvEntry) : List Char :=
  (if e.isConst then ("const set " : String).data else ("set " : String).data)
    ++ e.name.data ++ (" = " : String).data ++ renderValue e.value ++ ['\n']

/-- Modelled from the spec: `render(environment) -> text`. -/
def render : Env → List Char
  | [] => []
  | e :: rest => renderEntry e ++ render rest

/-! ## Engine load/save operations (spec sections 4.3, 6) -/

/-- Modelled from the spec: `cfg_load_string` — tokenize, parse, execute;
lex and parse failures surface as PARSE_ERROR, evaluation failures by
their own status, and partial mutations are retained.  The last-error
message is overwritten by every call and cleared on success. -/
def cfg_load_string (st : EngineState) (code : String) : Int × EngineState :=
  match tokenize code with
  | .error _ =>
      (engineStatus .lexError, { st with lastError := "Lex error" })
  | .ok toks =>
      match parseProgram toks with
      | .error _ =>
          (engineStatus .parseError, { st with lastError := "Parse error" })
      | .ok stmts =>
          match execStmts st.env stmts with
          | (env2, none) => (ERR_CFG_OK, { env := env2, lastError := "" })
          | (env2, some e) =>
              (engineStatus e, { env := env2, lastError := "Eval error" })

/-- A simple model of the file system: path to contents, write order kept. -/
abbrev FileSystem := List (String × String)

def fsRead (fs : FileSystem) (path : String) : Option String :=
  (fs.find? (fun p => p.1 == path)).map (fun p => p.2)

def fsWrite (fs : FileSystem) (path : String) (content : String) : FileSystem :=
  if (fs.find? (fun p => p.1 == path)).isSome then
    fs.map (fun p => if p.1 == path then (path, content) else p)
  else fs ++ [(path, content)]

/-- Modelled from the spec: `cfg_load_file` — FileError when the file
cannot be read, otherwise load its contents as source text. -/
def cfg_load_file (fs : FileSystem) (st : EngineState) (path : String) :
    Int × EngineState :=
  match fsRead fs path with
  | none =>
      (engineStatus .fileError,
        { st with lastError := "Cannot open file: " ++ path })
  | some content => cfg_load_string st content

/-- Modelled from the spec: `cfg_save_file` — writes the serialized
environment; the file format is exactly the Serializer's output. -/
def cfg_save_file (fs : FileSystem) (st : EngineState) (path : String) :
    Int × FileSystem × EngineState :=
  (ERR_CFG_OK, fsWrite fs path (String.mk (render st.env)),
    { st with lastError := "" })

/-! ## The Python wrapper layer (from `configlang.py`, lines 221-376)

Each wrapper method calls the engine, then `self._check_error(result)`,
which fetches the (updated) last-error message and raises.  We model a
raised exception as `Except.error`. -/

/-- The common call-then-check pattern of the wrapper methods. -/
def wrapStatus (r : Int × EngineState) : Except PyExc EngineState :=
  match check_error r.1 r.2.lastError with
  | none => .ok r.2
  | some e => .error e

namespace ConfigLang

/-- Wrapper `load_string` (lines 236-249). -/
def load_string (st : EngineState) (code : String) : Except PyExc EngineState :=
  wrapStatus (cfg_load_string st code)

/-- Wrapper `load_file` (lines 221-234). -/
def load_file (fs : FileSystem) (st : EngineState) (path : String) :
    Except PyExc EngineState :=
  wrapStatus (cfg_load_file fs st path)

/-- Wrapper `get_int` (lines 251-269). -/
def get_int (st : EngineState) (name : String) :
    Except PyExc (Int × EngineState) :=
  match check_error (cfg_get_int st name).1 (cfg_get_int st name).2.2.lastError with
  | none => .ok ((cfg_get_int st name).2.1.getD 0, (cfg_get_int st name).2.2)
  | some e => .error e

/-- Wrapper `get_string` (lines 271-289). -/
def get_string (st : EngineState) (name : String) :
    Except PyExc (String × EngineState) :=
  match check_error (cfg_get_string st name).1 (cfg_get_string st name).2.2.lastError with
  | none => .ok ((cfg_get_string st name).2.1.getD "", (cfg_get_string st name).2.2)
  | some e => .error e

/-- Wrapper `set_int` (lines 291-306). -/
def set_int (st : EngineState) (name : String) (value : Int) :
    Except PyExc EngineState :=
  wrapStatus (cfg_set_int st name value)

/-- Wrapper `save_file` (lines 308-320). -/
def save_file (fs : FileSystem) (st : EngineState) (path : String) :
    Except PyExc (FileSystem × EngineState) :=
  match check_error (cfg_save_file fs st path).1
      (cfg_save_file fs st path).2.2.lastError with
  | none => .ok ((cfg_save_file fs st path).2.1, (cfg_save_file fs st path).2.2)
  | some e => .error e

/-- Wrapper `get` (lines 332-350): try `get_int`, and on a raised
`TypeMismatchError` fall back to `get_string` on the engine state left by
the failed call. -/
def get (st : EngineState) (name : String) :
    Except PyExc (Value × EngineState) :=
  match check_error (cfg_get_int st name).1 (cfg_get_int st name).2.2.lastError with
  | none => .ok (.int ((cfg_get_int st name).2.1.getD 0), (cfg_get_int st name).2.2)
  | some e =>
      if e.isInstanceOf .typeMismatchError then
        match get_string (cfg_get_int st name).2.2 name with
        | .ok (s, st3) => .ok (.str s, st3)
        | .error e2 => .error e2
      else .error e

/-- Wrapper `__getitem__` (lines 352-362): delegates to `get`. -/
def getitem (st : EngineState) (name : String) :
    Except PyExc (Value × EngineState) :=
  get st name

end ConfigLang

/-! ## Python values for `__setitem__` (lines 364-376) -/

/-- A Python value as passed to `__setitem__`.  `bool` is a subclass of
`int` in Python, so `isinstance(value, int)` accepts it. -/
inductive PyVal
  | int (n : Int)
  | bool (b : Bool)
  | str (s : String)
  | none
deriving DecidableEq, Repr

/-- Python `isinstance(value, int)`. -/
def PyVal.isInstInt : PyVal → Bool
  | .int _ => true
  | .bool _ => true
  | _ => false

/-- The integer a Python int-like value denotes. -/
def PyVal.toInt : PyVal → Int
  | .int n => n
  | .bool true => 1
  | .bool false => 0
  | _ => 0

/-- Wrapper `__setitem__`: raises the builtin `TypeError` before any engine
call when the value is not an int, otherwise delegates to `set_int`. -/
def ConfigLang.setitem (st : EngineState) (name : String) (value : PyVal) :
    Except PyExc EngineState :=
  if value.isInstInt then ConfigLang.set_int st name value.toInt
  else .error (.typeError "Only integer values are supported via setitem")

/-! ## Instance lifecycle (from `configlang.py`, `__del__` lines 99-102 and
`__exit__` lines 108-113)

`__exit__` destroys the engine handle and clears `self._cfg`; `__del__`
destroys it only when `self._cfg` is still set, and Python runs `__del__`
at most once, as the very last event of an object's life.  We model the
object as its handle field plus a count of `cfg_destroy` calls. -/

/-- The wrapper object's lifecycle-relevant state. -/
structure PyObjState where
  cfg : Option Unit
  destroyCalls : Nat
deriving DecidableEq, Repr

/-- `__exit__`: destroy if the handle is set, then clear it. -/
def pyExitStep (s : PyObjState) : PyObjState :=
  match s.cfg with
  | some _ => ⟨none, s.destroyCalls + 1⟩
  | none => s

/-- `__del__`: destroy if the handle is set; the handle is not cleared. -/
def pyDelStep (s : PyObjState) : PyObjState :=
  match s.cfg with
  | some _ => ⟨s.cfg, s.destroyCalls + 1⟩
  | none => s

/-- A lifecycle event on the wrapper object. -/
inductive LifeEv
  | exitEv
  | delEv
deriving DecidableEq, Repr

def lifeStep (s : PyObjState) : LifeEv → PyObjState
  | .exitEv => pyExitStep s
  | .delEv => pyDelStep s

def runLife (s : PyObjState) : List LifeEv → PyObjState
  | [] => s
  | e :: rest => runLife (lifeStep s e) rest

/-- A trace the Python runtime can produce: the finalizer `__del__` runs at
most once and only as the last event of the object's life. -/
def RealizableTrace (tr : List LifeEv) : Prop :=
  ∀ e ∈ tr.dropLast, e = LifeEv.exitEv

/-- The state of a wrapper object whose construction just succeeded. -/
def freshObj : PyObjState := ⟨some (), 0⟩

/-! ## Reachability and well-formedness (for the round-trip property) -/

/-- A sequence of load calls, each required to succeed. -/
def loadSeq (st : EngineState) : List String → Option EngineState
  | [] => some st
  | code :: rest =>
      match cfg_load_string st code with
      | (status, st2) => if status = ERR_CFG_OK then loadSeq st2 rest else none

/-- An environment reachable from a fresh instance by successful loads. -/
def Reachable (env : Env) : Prop :=
  ∃ codes st, loadSeq initState codes = some st ∧ st.env = env

/-- A nonempty identifier: letter or underscore, then letters, digits or
underscores. -/
def validIdentChars : List Char → Bool
  | [] => false
  | c :: cs => isIdentStart c && cs.all isIdentChar

def validIdent (s : String) : Bool := validIdentChars s.data

def isKeyword (s : String) : Bool := s = "set" || s = "const" || s = "if"

/-- String values the lexer can ever produce contain no newline. -/
def strValueOK (s : String) : Bool := s.data.all (fun c => c != '\n')

def valueOK : Value → Bool
  | .int _ => true
  | .str s => strValueOK s

def entryOK (e : EnvEntry) : Bool :=
  validIdent e.name && !isKeyword e.name && valueOK e.value

/-- The environment invariant maintained by the engine: well-formed entries
and pairwise-distinct names. -/
def EnvOK (env : Env) : Prop :=
  (∀ e ∈ env, entryOK e = true) ∧ (env.map (fun e => e.name)).Nodup

/-- Well-formedness of a token as produced by the lexer. -/
def tokOK : Token → Bool
  | .ident s => validIdent s && !isKeyword s
  | .strLit s => strValueOK s
  | _ => true

/-- Well-formedness of an expression as produced by the parser. -/
def exprOK : Expr → Bool
  | .strLit s => strValueOK s
  | _ => true

def cmpOK (c : Comparison) : Bool := exprOK c.lhs && exprOK c.rhs

mutual

/-- Well-formedness of a statement as produced by the parser. -/
def stmtOK : Stmt → Bool
  | .assign name _ v => validIdent name && !isKeyword name && exprOK v
  | .cond c body => cmpOK c && stmtsOK body

def stmtsOK : List Stmt → Bool
  | [] => true
  | s :: rest => stmtOK s && stmtsOK rest

end

/-- Intra-token lexer-mode invariant used for lexer soundness. -/
def modeOK : LexMode → Prop
  | .inIdent acc => validIdentChars acc = true
  | .inStr acc => acc.all (fun c => c != '\n') = true
  | .inStrEsc acc => acc.all (fun c => c != '\n') = true
  | _ => True

/-- The token a serialized value lexes back to. -/
def valueToken : Value → Token
  | .int n => .intLit n
  | .str s => .strLit s

/-- The token list one serialized line lexes back to. -/
def entryToks (e : EnvEntry) : List Token :=
  (if e.isConst then [Token.kwConst] else [])
    ++ [Token.kwSet, .ident e.name, .opAssign, valueToken e.value]

def envToks : Env → List Token
  | [] => []
  | e :: rest => entryToks e ++ envToks rest

/-- The expression a serialized value parses back to. -/
def exprOfValue : Value → Expr
  | .int n => .intLit n
  | .str s => .strLit s

/-- The statement list a serialized environment parses back to. -/
def assignStmts : Env → List Stmt
  | [] => []
  | e :: rest => .assign e.name e.isConst (exprOfValue e.value) :: assignStmts rest

/-- Digit accumulation as done by the lexer's number mode. -/
def foldDigits (v : Nat) : List Char → Nat
  | [] => v
  | c :: cs => foldDigits (v * 10 + digitVal c) cs

/-- The value of a little-endian digit-character list. -/
def valRev : List Char → Nat
  | [] => 0
  | c :: t => valRev t * 10 + digitVal c

/-- A list of decimal digit characters. -/
def DigitList (ds : List Char) : Prop :=
  ∀ c ∈ ds, ∃ d, d < 10 ∧ c = digitChar d

/-- Modelled from the spec: success/failure translation shared by the six
wrapper operations: on OK status the engine result is returned, on any
other status the exception `_check_error` builds from the engine's
last-error message is raised. -/
def raisesVia {α : Type} (result : Except PyExc α) (okVal : α)
    (status : Int) (lastErr : String) : Prop :=
  (status = ERR_CFG_OK → result = .ok okVal) ∧
  (status ≠ ERR_CFG_OK →
    ∃ e, result = .error e ∧ check_error status lastErr = some e)

/-! # Theorems -/

/-- The ancestor chain is the closure of the direct-base declaration. -/
theorem ancestors_eq_base_chain (c : PyClass) :
    c.ancestors = c :: (match c.base with
      | none => []
      | some p => p.ancestors) := by
  cases c <;> rfl

/-- Rebuilding a string from its character list is the identity. -/
theorem strMkData (s : String) : String.mk s.data = s := rfl

/-- `_check_error` raises exactly on nonzero status. -/
theorem check_error_eq_none_iff (s : Int) (m : String) :
    check_error s m = none ↔ s = ERR_CFG_OK := by
  unfold check_error
  split_ifs <;> simp_all

/-- `wrapStatus` implements the call-then-check translation. -/
theorem wrapStatus_raisesVia (r : Int × EngineState) :
    raisesVia (wrapStatus r) r.2 r.1 r.2.lastError := by
  constructor
  · intro h
    unfold wrapStatus
    rw [(check_error_eq_none_iff r.1 r.2.lastError).mpr h]
  · intro h
    unfold wrapStatus
    rcases hc : check_error r.1 r.2.lastError with _ | e
    · exact absurd ((check_error_eq_none_iff r.1 r.2.lastError).mp hc) h
    · exact ⟨e, rfl, rfl⟩

/-- C6: The wrapper's status-code constants are exactly the engine's stable
integers, bit for bit: OK=0, NULL_POINTER=-1, FILE_ERROR=-2,
PARSE_ERROR=-3, VARIABLE_NOT_FOUND=-4, CONST_VIOLATION=-5,
OUT_OF_MEMORY=-6, TYPE_MISMATCH=-7, UNKNOWN_ERROR=-8. -/
theorem C6_status_codes :
    ERR_CFG_OK = 0 ∧ ERR_CFG_NULL_POINTER = -1 ∧ ERR_CFG_FILE_ERROR = -2 ∧
    ERR_CFG_PARSE_ERROR = -3 ∧ ERR_CFG_VARIABLE_NOT_FOUND = -4 ∧
    ERR_CFG_CONST_VIOLATION = -5 ∧ ERR_CFG_OUT_OF_MEMORY = -6 ∧
    ERR_CFG_TYPE_MISMATCH = -7 ∧ ERR_CFG_UNKNOWN_ERROR = -8 ∧
    engineStatus .parseError = ERR_CFG_PARSE_ERROR ∧
    engineStatus .lexError = ERR_CFG_PARSE_ERROR ∧
    engineStatus .varNotFound = ERR_CFG_VARIABLE_NOT_FOUND ∧
    engineStatus .constViolation = ERR_CFG_CONST_VIOLATION ∧
    engineStatus .typeMismatch = ERR_CFG_TYPE_MISMATCH ∧
    engineStatus .fileError = ERR_CFG_FILE_ERROR ∧
    engineStatus .outOfMemory = ERR_CFG_OUT_OF_MEMORY ∧
    engineStatus .unknownError = ERR_CFG_UNKNOWN_ERROR := by
  refine ⟨rfl, rfl, rfl, rfl, rfl, rfl, rfl, rfl, rfl, ?_⟩
  exact ⟨rfl, rfl, rfl, rfl, rfl, rfl, rfl, rfl⟩

/-- C10: ParseError, VariableNotFoundError, ConstViolationError and
TypeMismatchError are subclasses of ConfigLangError, and every exception
`_check_error` raises for a nonzero status is an instance of
ConfigLangError, so one `except ConfigLangError` handler catches every
engine-reported failure. -/
theorem C10_exception_hierarchy :
    PyClass.isSubclassOf .parseError .configLangError = true ∧
    PyClass.isSubclassOf .variableNotFoundError .configLangError = true ∧
    PyClass.isSubclassOf .constViolationError .configLangError = true ∧
    PyClass.isSubclassOf .typeMismatchError .configLangError = true ∧
    ∀ (s : Int) (msg : String), s ≠ 0 →
      ∃ e, check_error s msg = some e ∧
        e.isInstanceOf .configLangError = true := by
  refine ⟨by decide, by decide, by decide, by decide, ?_⟩
  intro s msg hs
  unfold check_error
  rw [if_neg (by simpa [ERR_CFG_OK] using hs)]
  split_ifs <;> exact ⟨_, rfl, rfl⟩

/-- C10 witness: a concrete nonzero status. -/
theorem C10_witness :
    (-8 : Int) ≠ 0 ∧
    ∃ e, check_error (-8) "boom" = some e ∧
      e.isInstanceOf .configLangError = true :=
  ⟨by decide, C10_exception_hierarchy.2.2.2.2 (-8) "boom" (by decide)⟩

/-- C1: `_check_error` maps status 0 to no exception, -3 to ParseError, -4
to VariableNotFoundError, -5 to ConstViolationError, -7 to
TypeMismatchError and every other nonzero status to the base
ConfigLangError; every raised exception carries the engine's last-error
message; the listed statuses map to pairwise distinct exception classes;
and each of the six engine-facing wrapper operations translates its engine
status via `_check_error` applied to the engine's last-error message. -/
theorem C1_status_translation (s : Int) (msg : String) :
    check_error ERR_CFG_OK msg = none ∧
    check_error ERR_CFG_PARSE_ERROR msg = some (.parseError msg) ∧
    check_error ERR_CFG_VARIABLE_NOT_FOUND msg =
      some (.variableNotFoundError msg) ∧
    check_error ERR_CFG_CONST_VIOLATION msg =
      some (.constViolationError msg) ∧
    check_error ERR_CFG_TYPE_MISMATCH msg = some (.typeMismatchError msg) ∧
    (s ≠ ERR_CFG_OK → s ≠ ERR_CFG_PARSE_ERROR →
      s ≠ ERR_CFG_VARIABLE_NOT_FOUND → s ≠ ERR_CFG_CONST_VIOLATION →
      s ≠ ERR_CFG_TYPE_MISMATCH →
      check_error s msg =
        some (.configLangError ("Error " ++ toString s ++ ": " ++ msg))) ∧
    (∀ e, check_error s msg = some e → msg.data <:+: e.message.data) ∧
    ((check_error ERR_CFG_PARSE_ERROR msg).map PyExc.cls ≠
      (check_error ERR_CFG_VARIABLE_NOT_FOUND msg).map PyExc.cls ∧
     (check_error ERR_CFG_PARSE_ERROR msg).map PyExc.cls ≠
      (check_error ERR_CFG_CONST_VIOLATION msg).map PyExc.cls ∧
     (check_error ERR_CFG_PARSE_ERROR msg).map PyExc.cls ≠
      (check_error ERR_CFG_TYPE_MISMATCH msg).map PyExc.cls ∧
     (check_error ERR_CFG_PARSE_ERROR msg).map PyExc.cls ≠
      (check_error ERR_CFG_NULL_POINTER msg).map PyExc.cls ∧
     (check_error ERR_CFG_VARIABLE_NOT_FOUND msg).map PyExc.cls ≠
      (check_error ERR_CFG_CONST_VIOLATION msg).map PyExc.cls ∧
     (check_error ERR_CFG_VARIABLE_NOT_FOUND msg).map PyExc.cls ≠
      (check_error ERR_CFG_TYPE_MISMATCH msg).map PyExc.cls ∧
     (check_error ERR_CFG_VARIABLE_NOT_FOUND msg).map PyExc.cls ≠
      (check_error ERR_CFG_NULL_POINTER msg).map PyExc.cls ∧
     (check_error ERR_CFG_CONST_VIOLATION msg).map PyExc.cls ≠
      (check_error ERR_CFG_TYPE_MISMATCH msg).map PyExc.cls ∧
     (check_error ERR_CFG_CONST_VIOLATION msg).map PyExc.cls ≠
      (check_error ERR_CFG_NULL_POINTER msg).map PyExc.cls ∧
     (check_error ERR_CFG_TYPE_MISMATCH msg).map PyExc.cls ≠
      (check_error ERR_CFG_NULL_POINTER msg).map PyExc.cls) ∧
    (∀ st code, raisesVia (ConfigLang.load_string st code)
      (cfg_load_string st code).2 (cfg_load_string st code).1
      (cfg_load_string st code).2.lastError) ∧
    (∀ fs st path, raisesVia (ConfigLang.load_file fs st path)
      (cfg_load_file fs st path).2 (cfg_load_file fs st path).1
      (cfg_load_file fs st path).2.lastError) ∧
    (∀ st name, raisesVia (ConfigLang.get_int st name)
      ((cfg_get_int st name).2.1.getD 0, (cfg_get_int st name).2.2)
      (cfg_get_int st name).1 (cfg_get_int st name).2.2.lastError) ∧
    (∀ st name, raisesVia (ConfigLang.get_string st name)
      ((cfg_get_string st name).2.1.getD "", (cfg_get_string st name).2.2)
      (cfg_get_string st name).1 (cfg_get_string st name).2.2.lastError) ∧
    (∀ st name v, raisesVia (ConfigLang.set_int st name v)
      (cfg_set_int st name v).2 (cfg_set_int st name v).1
      (cfg_set_int st name v).2.lastError) ∧
    (∀ fs st path, raisesVia (ConfigLang.save_file fs st path)
      ((cfg_save_file fs st path).2.1, (cfg_save_file fs st path).2.2)
      (cfg_save_file fs st path).1
      (cfg_save_file fs st path).2.2.lastError) := by
  refine ⟨rfl, rfl, rfl, rfl, rfl, ?_, ?_, ?_, ?_, ?_, ?_, ?_, ?_, ?_⟩
  · intro h0 h3 h4 h5 h7
    unfold check_error
    rw [if_neg h0, if_neg h3, if_neg h4, if_neg h5, if_neg h7]
  · intro e he
    unfold check_error at he
    split_ifs at he
    · cases he
      exact List.infix_rfl
    · cases he
      exact List.infix_rfl
    · cases he
      exact List.infix_rfl
    · cases he
      exact List.infix_rfl
    · cases he
      show msg.data <:+: (("Error " ++ toString s ++ ": ") ++ msg).data
      rw [String.data_append]
      exact (List.suffix_append _ _).isInfix
  · refine ⟨?_, ?_, ?_, ?_, ?_, ?_, ?_, ?_, ?_, ?_⟩ <;>
      simp [check_error, ERR_CFG_OK, ERR_CFG_PARSE_ERROR,
        ERR_CFG_VARIABLE_NOT_FOUND, ERR_CFG_CONST_VIOLATION,
        ERR_CFG_TYPE_MISMATCH, ERR_CFG_NULL_POINTER, PyExc.cls]
  · intro st code
    exact wrapStatus_raisesVia (cfg_load_string st code)
  · intro fs st path
    exact wrapStatus_raisesVia (cfg_load_file fs st path)
  · intro st name
    constructor
    · intro h
      unfold ConfigLang.get_int
      rw [(check_error_eq_none_iff _ _).mpr h]
    · intro h
      unfold ConfigLang.get_int
      rcases hc : check_error (cfg_get_int st name).1
          (cfg_get_int st name).2.2.lastError with _ | e
      · exact absurd ((check_error_eq_none_iff _ _).mp hc) h
      · exact ⟨e, rfl, rfl⟩
  · intro st name
    constructor
    · intro h
      unfold ConfigLang.get_string
      rw [(check_error_eq_none_iff _ _).mpr h]
    · intro h
      unfold ConfigLang.get_string
      rcases hc : check_error (cfg_get_string st name).1
          (cfg_get_string st name).2.2.lastError with _ | e
      · exact absurd ((check_error_eq_none_iff _ _).mp hc) h
      · exact ⟨e, rfl, rfl⟩
  · intro st name v
    exact wrapStatus_raisesVia (cfg_set_int st name v)
  · intro fs st path
    constructor
    · intro h
      unfold ConfigLang.save_file
      rw [(check_error_eq_none_iff _ _).mpr h]
    · intro h
      unfold ConfigLang.save_file
      rcases hc : check_error (cfg_save_file fs st path).1
          (cfg_save_file fs st path).2.2.lastError with _ | e
      · exact absurd ((check_error_eq_none_iff _ _).mp hc) h
      · exact ⟨e, rfl, rfl⟩

/-- C1 witness: the catch-all branch at status -6 and the routing of
`set_int` on a concrete failing call (unknown variable on a fresh
instance). -/
theorem C1_witness :
    check_error (-6) "m" =
      some (.configLangError ("Error " ++ toString (-6 : Int) ++ ": " ++ "m")) ∧
    (∃ e, ConfigLang.set_int initState "x" 1 = .error e ∧
      check_error (cfg_set_int initState "x" 1).1
        (cfg_set_int initState "x" 1).2.lastError = some e) :=
  ⟨(C1_status_translation (-6) "m").2.2.2.2.2.1 (by decide) (by decide)
      (by decide) (by decide) (by decide),
    ((C1_status_translation 0 "").2.2.2.2.2.2.2.2.2.2.2.2.1
      initState "x" 1).2 (by decide)⟩

/-- Unfolding lookup over a cons cell. -/
theorem lookupVar_cons (a : EnvEntry) (rest : Env) (y : String) :
    Env.lookupVar (a :: rest) y =
      if a.name == y then some a else Env.lookupVar rest y := by
  cases h : (a.name == y) with
  | true => simp [Env.lookupVar, List.find?, h]
  | false => simp [Env.lookupVar, List.find?, h]

/-- Unfolding overwrite over a cons cell. -/
theorem overwrite_cons (a : EnvEntry) (rest : Env) (name : String)
    (v : Value) (c : Bool) :
    Env.overwrite (a :: rest) name v c =
      (if a.name == name then (⟨name, v, c⟩ : EnvEntry) else a)
        :: Env.overwrite rest name v c := rfl

/-- Overwriting an existing variable makes lookup return the new binding. -/
theorem lookupVar_overwrite_self (env : Env) (name : String) (v : Value)
    (c : Bool) (e : EnvEntry) (h : env.lookupVar name = some e) :
    (env.overwrite name v c).lookupVar name = some ⟨name, v, c⟩ := by
  induction env with
  | nil => cases h
  | cons a rest ih =>
      rw [overwrite_cons, lookupVar_cons]
      rw [lookupVar_cons] at h
      by_cases ha : a.name = name
      · have hb : (a.name == name) = true := beq_iff_eq.mpr ha
        simp [hb]
      · have hb : (a.name == name) = false := beq_eq_false_iff_ne.mpr ha
        rw [hb] at h
        simp only [hb, Bool.false_eq_true, if_false] at h ⊢
        exact ih h

/-- Overwriting one variable leaves every other lookup unchanged. -/
theorem lookupVar_overwrite_other (env : Env) (name : String) (v : Value)
    (c : Bool) (y : String) (hy : y ≠ name) :
    (env.overwrite name v c).lookupVar y = env.lookupVar y := by
  induction env with
  | nil => rfl
  | cons a rest ih =>
      rw [overwrite_cons, lookupVar_cons, lookupVar_cons]
      by_cases ha : a.name = name
      · have h1 : (a.name == name) = true := beq_iff_eq.mpr ha
        have h2 : (a.name == y) = false := beq_eq_false_iff_ne.mpr (ha ▸ hy.symm)
        have h3 : ((name : String) == y) = false :=
          beq_eq_false_iff_ne.mpr hy.symm
        simp only [h1, h2, h3, if_true, Bool.false_eq_true, if_false]
        exact ih
      · have h1 : (a.name == name) = false := beq_eq_false_iff_ne.mpr ha
        simp only [h1, Bool.false_eq_true, if_false]
        cases hb : (a.name == y) with
        | true => simp [hb]
        | false => simp only [hb, Bool.false_eq_true, if_false]; exact ih

/-- C4: `get_int` raises VariableNotFoundError when the name is absent,
TypeMismatchError when the stored kind is string, and otherwise returns
the stored integer; symmetrically `get_string` raises TypeMismatchError
when the stored kind is integer and otherwise returns the stored string
(and VariableNotFoundError when absent). -/
theorem C4_get_typing (st : EngineState) (name : String) :
    (st.env.lookupVar name = none →
      (∃ m, ConfigLang.get_int st name = .error (.variableNotFoundError m)) ∧
      (∃ m, ConfigLang.get_string st name = .error (.variableNotFoundError m))) ∧
    (∀ nm s c, st.env.lookupVar name = some ⟨nm, .str s, c⟩ →
      ∃ m, ConfigLang.get_int st name = .error (.typeMismatchError m)) ∧
    (∀ nm n c, st.env.lookupVar name = some ⟨nm, .int n, c⟩ →
      ConfigLang.get_int st name = .ok (n, { st with lastError := "" })) ∧
    (∀ nm n c, st.env.lookupVar name = some ⟨nm, .int n, c⟩ →
      ∃ m, ConfigLang.get_string st name = .error (.typeMismatchError m)) ∧
    (∀ nm s c, st.env.lookupVar name = some ⟨nm, .str s, c⟩ →
      ConfigLang.get_string st name = .ok (s, { st with lastError := "" })) := by
  refine ⟨?_, ?_, ?_, ?_, ?_⟩
  · intro h
    have hcg : cfg_get_int st name = (engineStatus .varNotFound, none,
        { st with lastError := "Variable not found: " ++ name }) := by
      unfold cfg_get_int
      rw [h]
    have hcs : cfg_get_string st name = (engineStatus .varNotFound, none,
        { st with lastError := "Variable not found: " ++ name }) := by
      unfold cfg_get_string
      rw [h]
    constructor
    · refine ⟨"Variable not found: " ++ name, ?_⟩
      unfold ConfigLang.get_int
      rw [hcg]
      rfl
    · refine ⟨"Variable not found: " ++ name, ?_⟩
      unfold ConfigLang.get_string
      rw [hcs]
      rfl
  · intro nm s c h
    have hcg : cfg_get_int st name = (engineStatus .typeMismatch, none,
        { st with lastError := "Type mismatch: " ++ name ++ " is not an integer" }) := by
      unfold cfg_get_int
      rw [h]
    refine ⟨"Type mismatch: " ++ name ++ " is not an integer", ?_⟩
    unfold ConfigLang.get_int
    rw [hcg]
    rfl
  · intro nm n c h
    have hcg : cfg_get_int st name = (ERR_CFG_OK, some n,
        { st with lastError := "" }) := by
      unfold cfg_get_int
      rw [h]
    unfold ConfigLang.get_int
    rw [hcg]
    rfl
  · intro nm n c h
    have hcs : cfg_get_string st name = (engineStatus .typeMismatch, none,
        { st with lastError := "Type mismatch: " ++ name ++ " is not a string" }) := by
      unfold cfg_get_string
      rw [h]
    refine ⟨"Type mismatch: " ++ name ++ " is not a string", ?_⟩
    unfold ConfigLang.get_string
    rw [hcs]
    rfl
  · intro nm s c h
    have hcs : cfg_get_string st name = (ERR_CFG_OK, some s,
        { st with lastError := "" }) := by
      unfold cfg_get_string
      rw [h]
    unfold ConfigLang.get_string
    rw [hcs]
    rfl

/-- C4 witness: a concrete environment holding an integer and a string. -/
theorem C4_witness :
    (∃ m, ConfigLang.get_int ⟨[⟨"x", .int 1, false⟩, ⟨"y", .str "a", false⟩], ""⟩
      "z" = .error (.variableNotFoundError m)) ∧
    (∃ m, ConfigLang.get_int ⟨[⟨"x", .int 1, false⟩, ⟨"y", .str "a", false⟩], ""⟩
      "y" = .error (.typeMismatchError m)) ∧
    ConfigLang.get_int ⟨[⟨"x", .int 1, false⟩, ⟨"y", .str "a", false⟩], ""⟩
      "x" = .ok (1, ⟨[⟨"x", .int 1, false⟩, ⟨"y", .str "a", false⟩], ""⟩) ∧
    (∃ m, ConfigLang.get_string ⟨[⟨"x", .int 1, false⟩, ⟨"y", .str "a", false⟩], ""⟩
      "x" = .error (.typeMismatchError m)) ∧
    ConfigLang.get_string ⟨[⟨"x", .int 1, false⟩, ⟨"y", .str "a", false⟩], ""⟩
      "y" = .ok ("a", ⟨[⟨"x", .int 1, false⟩, ⟨"y", .str "a", false⟩], ""⟩) :=
  ⟨(C4_get_typing ⟨[⟨"x", .int 1, false⟩, ⟨"y", .str "a", false⟩], ""⟩ "z").1
      rfl |>.1,
   (C4_get_typing ⟨[⟨"x", .int 1, false⟩, ⟨"y", .str "a", false⟩], ""⟩ "y").2.1
      "y" "a" false rfl,
   (C4_get_typing ⟨[⟨"x", .int 1, false⟩, ⟨"y", .str "a", false⟩], ""⟩ "x").2.2.1
      "x" 1 false rfl,
   (C4_get_typing ⟨[⟨"x", .int 1, false⟩, ⟨"y", .str "a", false⟩], ""⟩ "x").2.2.2.1
      "x" 1 false rfl,
   (C4_get_typing ⟨[⟨"x", .int 1, false⟩, ⟨"y", .str "a", false⟩], ""⟩ "y").2.2.2.2
      "y" "a" false rfl⟩

/-- C2: `set_int` fails VariableNotFound when the name is absent and never
creates a variable; fails ConstViolation on a const binding leaving the
stored value unchanged (a later `get_int` still returns the old value);
fails TypeMismatch when the stored kind is string (no retyping); and
otherwise overwrites the stored integer in place. -/
theorem C2_set_int_semantics (st : EngineState) (name : String) (v : Int) :
    (st.env.lookupVar name = none →
      (∃ m, ConfigLang.set_int st name v = .error (.variableNotFoundError m)) ∧
      (cfg_set_int st name v).2.env = st.env) ∧
    (∀ nm v0, st.env.lookupVar name = some ⟨nm, v0, true⟩ →
      (∃ m, ConfigLang.set_int st name v = .error (.constViolationError m)) ∧
      (cfg_set_int st name v).2.env = st.env ∧
      (∀ n, v0 = .int n →
        ConfigLang.get_int (cfg_set_int st name v).2 name =
          .ok (n, { env := st.env, lastError := "" }))) ∧
    (∀ nm s, st.env.lookupVar name = some ⟨nm, .str s, false⟩ →
      (∃ m, ConfigLang.set_int st name v = .error (.typeMismatchError m)) ∧
      (cfg_set_int st name v).2.env = st.env) ∧
    (∀ nm n, st.env.lookupVar name = some ⟨nm, .int n, false⟩ →
      ConfigLang.set_int st name v =
        .ok ⟨st.env.overwrite name (.int v) false, ""⟩ ∧
      (st.env.overwrite name (.int v) false).lookupVar name =
        some ⟨name, .int v, false⟩ ∧
      (∀ y, y ≠ name →
        (st.env.overwrite name (.int v) false).lookupVar y =
          st.env.lookupVar y)) := by
  refine ⟨?_, ?_, ?_, ?_⟩
  · intro h
    have hcs : cfg_set_int st name v = (engineStatus .varNotFound,
        { st with lastError := "Variable not found: " ++ name }) := by
      unfold cfg_set_int
      rw [h]
    constructor
    · refine ⟨"Variable not found: " ++ name, ?_⟩
      unfold ConfigLang.set_int wrapStatus
      rw [hcs]
      rfl
    · rw [hcs]
  · intro nm v0 h
    have hcs : cfg_set_int st name v = (engineStatus .constViolation,
        { st with lastError := "Cannot modify const variable: " ++ name }) := by
      unfold cfg_set_int
      rw [h]
      rfl
    refine ⟨⟨"Cannot modify const variable: " ++ name, ?_⟩, ?_, ?_⟩
    · unfold ConfigLang.set_int wrapStatus
      rw [hcs]
      rfl
    · rw [hcs]
    · intro n hn
      rw [hcs]
      have hl : ({ st with
          lastError := "Cannot modify const variable: " ++ name } :
            EngineState).env.lookupVar name = some ⟨nm, .int n, true⟩ := by
        show st.env.lookupVar name = _
        rw [h, hn]
      have hcg : cfg_get_int { st with
          lastError := "Cannot modify const variable: " ++ name } name =
          (ERR_CFG_OK, some n, { env := st.env, lastError := "" }) := by
        unfold cfg_get_int
        rw [hl]
      unfold ConfigLang.get_int
      rw [hcg]
      rfl
  · intro nm s h
    have hcs : cfg_set_int st name v = (engineStatus .typeMismatch,
        { st with lastError := "Type mismatch: " ++ name ++ " is not an integer" }) := by
      unfold cfg_set_int
      rw [h]
      rfl
    constructor
    · refine ⟨"Type mismatch: " ++ name ++ " is not an integer", ?_⟩
      unfold ConfigLang.set_int wrapStatus
      rw [hcs]
      rfl
    · rw [hcs]
  · intro nm n h
    have hcs : cfg_set_int st name v = (ERR_CFG_OK,
        { env := st.env.overwrite name (.int v) false, lastError := "" }) := by
      unfold cfg_set_int
      rw [h]
      rfl
    refine ⟨?_, ?_, ?_⟩
    · unfold ConfigLang.set_int wrapStatus
      rw [hcs]
      rfl
    · exact lookupVar_overwrite_self st.env name (.int v) false _ h
    · intro y hy
      exact lookupVar_overwrite_other st.env name (.int v) false y hy

/-- C2 witness: a concrete environment with a mutable integer, a const
integer and a mutable string. -/
theorem C2_witness :
    (∃ m, ConfigLang.set_int
      ⟨[⟨"a", .int 1, false⟩, ⟨"k", .int 5, true⟩, ⟨"s", .str "t", false⟩], ""⟩
      "z" 9 = .error (.variableNotFoundError m)) ∧
    (∃ m, ConfigLang.set_int
      ⟨[⟨"a", .int 1, false⟩, ⟨"k", .int 5, true⟩, ⟨"s", .str "t", false⟩], ""⟩
      "k" 9 = .error (.constViolationError m)) ∧
    ConfigLang.get_int (cfg_set_int
      ⟨[⟨"a", .int 1, false⟩, ⟨"k", .int 5, true⟩, ⟨"s", .str "t", false⟩], ""⟩
      "k" 9).2 "k" =
      .ok (5, ⟨[⟨"a", .int 1, false⟩, ⟨"k", .int 5, true⟩, ⟨"s", .str "t", false⟩], ""⟩) ∧
    (∃ m, ConfigLang.set_int
      ⟨[⟨"a", .int 1, false⟩, ⟨"k", .int 5, true⟩, ⟨"s", .str "t", false⟩], ""⟩
      "s" 9 = .error (.typeMismatchError m)) ∧
    ConfigLang.set_int
      ⟨[⟨"a", .int 1, false⟩, ⟨"k", .int 5, true⟩, ⟨"s", .str "t", false⟩], ""⟩
      "a" 9 =
      .ok ⟨[⟨"a", .int 9, false⟩, ⟨"k", .int 5, true⟩, ⟨"s", .str "t", false⟩], ""⟩ :=
  ⟨(C2_set_int_semantics
      ⟨[⟨"a", .int 1, false⟩, ⟨"k", .int 5, true⟩, ⟨"s", .str "t", false⟩], ""⟩
      "z" 9).1 rfl |>.1,
   (C2_set_int_semantics
      ⟨[⟨"a", .int 1, false⟩, ⟨"k", .int 5, true⟩, ⟨"s", .str "t", false⟩], ""⟩
      "k" 9).2.1 "k" (.int 5) rfl |>.1,
   (C2_set_int_semantics
      ⟨[⟨"a", .int 1, false⟩, ⟨"k", .int 5, true⟩, ⟨"s", .str "t", false⟩], ""⟩
      "k" 9).2.1 "k" (.int 5) rfl |>.2.2 5 rfl,
   (C2_set_int_semantics
      ⟨[⟨"a", .int 1, false⟩, ⟨"k", .int 5, true⟩, ⟨"s", .str "t", false⟩], ""⟩
      "s" 9).2.2.1 "s" "t" rfl |>.1,
   (C2_set_int_semantics
      ⟨[⟨"a", .int 1, false⟩, ⟨"k", .int 5, true⟩, ⟨"s", .str "t", false⟩], ""⟩
      "a" 9).2.2.2 "a" 1 rfl |>.1⟩

/-- C5: loading the two-line program of the module docstring on a fresh
instance succeeds, after which `get_int("x")` returns 10 and
`get_string("name")` returns "Hello". -/
theorem C5_example_end_to_end :
    ConfigLang.load_string initState "set x = 10\nset name = \"Hello\"" =
      .ok ⟨[⟨"x", .int 10, false⟩, ⟨"name", .str "Hello", false⟩], ""⟩ ∧
    ConfigLang.get_int
      ⟨[⟨"x", .int 10, false⟩, ⟨"name", .str "Hello", false⟩], ""⟩ "x" =
      .ok (10, ⟨[⟨"x", .int 10, false⟩, ⟨"name", .str "Hello", false⟩], ""⟩) ∧
    ConfigLang.get_string
      ⟨[⟨"x", .int 10, false⟩, ⟨"name", .str "Hello", false⟩], ""⟩ "name" =
      .ok ("Hello", ⟨[⟨"x", .int 10, false⟩, ⟨"name", .str "Hello", false⟩], ""⟩) :=
  ⟨rfl, rfl, rfl⟩

/-- After the handle is cleared nothing further happens. -/
theorem runLife_cfg_none (tr : List LifeEv) (s : PyObjState)
    (h : s.cfg = none) : runLife s tr = s := by
  induction tr with
  | nil => rfl
  | cons e rest ih =>
      have hstep : lifeStep s e = s := by
        cases e <;> simp [lifeStep, pyExitStep, pyDelStep, h]
      rw [runLife, hstep]
      exact ih

/-- C7: over any trace the Python runtime can produce (the finalizer runs
at most once and last), `cfg_destroy` is called at most once, and exactly
once whenever the finalizer runs after a successful construction;
`__exit__` clears the handle so a later `__del__` does not destroy again. -/
theorem C7_destroy_exactly_once (tr : List LifeEv) (h : RealizableTrace tr) :
    (runLife freshObj tr).destroyCalls ≤ 1 ∧
    ((∃ pre, tr = pre ++ [LifeEv.delEv]) →
      (runLife freshObj tr).destroyCalls = 1) := by
  cases tr with
  | nil =>
      constructor
      · exact Nat.zero_le 1
      · rintro ⟨pre, hpre⟩
        exact absurd hpre (by simp)
  | cons e rest =>
      have hone : (runLife freshObj (e :: rest)).destroyCalls = 1 := by
        cases e with
        | exitEv =>
            have hstep : lifeStep freshObj .exitEv = ⟨none, 1⟩ := rfl
            rw [runLife, hstep, runLife_cfg_none rest _ rfl]
        | delEv =>
            have hrest : rest = [] := by
              cases rest with
              | nil => rfl
              | cons e2 r2 =>
                  have hmem : LifeEv.delEv ∈
                      (LifeEv.delEv :: e2 :: r2).dropLast := by
                    simp [List.dropLast]
                  exact absurd (h _ hmem) (by decide)
            subst hrest
            rfl
      exact ⟨le_of_eq hone, fun _ => hone⟩

/-- C7 witness: the context-manager exit followed by the finalizer destroys
the engine exactly once. -/
theorem C7_witness :
    (runLife freshObj [LifeEv.exitEv, LifeEv.delEv]).destroyCalls = 1 :=
  (C7_destroy_exactly_once [LifeEv.exitEv, LifeEv.delEv]
      (by intro e he; simpa using he)).2 ⟨[LifeEv.exitEv], rfl⟩

/-- C8: `get` (and `__getitem__`) returns the value of an existing variable
whatever its kind, falling back to `get_string` when `get_int` raises
TypeMismatchError; it never propagates TypeMismatchError and raises
VariableNotFoundError for a missing name. -/
theorem C8_get_any_kind (st : EngineState) (name : String) :
    (st.env.lookupVar name = none →
      ∃ m, ConfigLang.get st name = .error (.variableNotFoundError m)) ∧
    (∀ nm n c, st.env.lookupVar name = some ⟨nm, .int n, c⟩ →
      ConfigLang.get st name = .ok (.int n, { st with lastError := "" })) ∧
    (∀ nm s c, st.env.lookupVar name = some ⟨nm, .str s, c⟩ →
      ConfigLang.get st name = .ok (.str s, { st with lastError := "" })) ∧
    (∀ e, ConfigLang.get st name = .error e → e.cls ≠ .typeMismatchError) ∧
    ConfigLang.getitem st name = ConfigLang.get st name := by
  have hnone : st.env.lookupVar name = none →
      ConfigLang.get st name = .error
        (.variableNotFoundError ("Variable not found: " ++ name)) := by
    intro h
    have hcg : cfg_get_int st name = (engineStatus .varNotFound, none,
        { st with lastError := "Variable not found: " ++ name }) := by
      unfold cfg_get_int
      rw [h]
    unfold ConfigLang.get
    rw [hcg]
    rfl
  have hint : ∀ nm n c, st.env.lookupVar name = some ⟨nm, .int n, c⟩ →
      ConfigLang.get st name = .ok (.int n, { st with lastError := "" }) := by
    intro nm n c h
    have hcg : cfg_get_int st name = (ERR_CFG_OK, some n,
        { st with lastError := "" }) := by
      unfold cfg_get_int
      rw [h]
    unfold ConfigLang.get
    rw [hcg]
    rfl
  have hstr : ∀ nm s c, st.env.lookupVar name = some ⟨nm, .str s, c⟩ →
      ConfigLang.get st name = .ok (.str s, { st with lastError := "" }) := by
    intro nm s c h
    have hcg : cfg_get_int st name = (engineStatus .typeMismatch, none,
        { st with lastError := "Type mismatch: " ++ name ++ " is not an integer" }) := by
      unfold cfg_get_int
      rw [h]
    have hl : ({ st with lastError :=
        "Type mismatch: " ++ name ++ " is not an integer" } :
          EngineState).env.lookupVar name = some ⟨nm, .str s, c⟩ := by
      show st.env.lookupVar name = _
      exact h
    have hcs : cfg_get_string { st with lastError :=
        "Type mismatch: " ++ name ++ " is not an integer" } name =
        (ERR_CFG_OK, some s, { env := st.env, lastError := "" }) := by
      unfold cfg_get_string
      rw [hl]
    have hgs : ConfigLang.get_string { st with lastError :=
        "Type mismatch: " ++ name ++ " is not an integer" } name =
        .ok (s, { env := st.env, lastError := "" }) := by
      unfold ConfigLang.get_string
      rw [hcs]
      rfl
    unfold ConfigLang.get
    rw [hcg]
    show (match ConfigLang.get_string { st with lastError :=
        "Type mismatch: " ++ name ++ " is not an integer" } name with
      | .ok (s2, st3) => Except.ok (Value.str s2, st3)
      | .error e2 => Except.error e2) = _
    rw [hgs]
  refine ⟨fun h => ⟨_, hnone h⟩, hint, hstr, ?_, rfl⟩
  intro e he
  rcases hl : st.env.lookupVar name with _ | en
  · rw [hnone hl] at he
    cases he
    intro hcls
    cases hcls
  · obtain ⟨nm, v, c⟩ := en
    cases v with
    | int n =>
        rw [hint nm n c hl] at he
        cases he
    | str s =>
        rw [hstr nm s c hl] at he
        cases he

/-- C8 witness: `get` on an integer variable, a string variable and a
missing name. -/
theorem C8_witness :
    ConfigLang.get ⟨[⟨"x", .int 1, false⟩, ⟨"y", .str "a", false⟩], ""⟩ "x" =
      .ok (.int 1, ⟨[⟨"x", .int 1, false⟩, ⟨"y", .str "a", false⟩], ""⟩) ∧
    ConfigLang.get ⟨[⟨"x", .int 1, false⟩, ⟨"y", .str "a", false⟩], ""⟩ "y" =
      .ok (.str "a", ⟨[⟨"x", .int 1, false⟩, ⟨"y", .str "a", false⟩], ""⟩) ∧
    (∃ m, ConfigLang.get ⟨[⟨"x", .int 1, false⟩, ⟨"y", .str "a", false⟩], ""⟩
      "z" = .error (.variableNotFoundError m)) :=
  ⟨(C8_get_any_kind ⟨[⟨"x", .int 1, false⟩, ⟨"y", .str "a", false⟩], ""⟩
      "x").2.1 "x" 1 false rfl,
   (C8_get_any_kind ⟨[⟨"x", .int 1, false⟩, ⟨"y", .str "a", false⟩], ""⟩
      "y").2.2.1 "y" "a" false rfl,
   (C8_get_any_kind ⟨[⟨"x", .int 1, false⟩, ⟨"y", .str "a", false⟩], ""⟩
      "z").1 rfl⟩

/-- C9: `__setitem__` raises the builtin TypeError for any non-int value,
without any engine call, and for int values behaves exactly as `set_int`
(Python bools count as ints). -/
theorem C9_setitem_int_only (st : EngineState) (name : String) (v : PyVal) :
    (v.isInstInt = false →
      ConfigLang.setitem st name v =
        .error (.typeError "Only integer values are supported via setitem")) ∧
    (v.isInstInt = true →
      ConfigLang.setitem st name v = ConfigLang.set_int st name v.toInt) := by
  constructor <;> intro h <;> simp [ConfigLang.setitem, h]

/-- C9 witness: a string value raises TypeError; an int value delegates. -/
theorem C9_witness :
    ConfigLang.setitem initState "x" (.str "a") =
      .error (.typeError "Only integer values are supported via setitem") ∧
    ConfigLang.setitem initState "x" (.int 5) =
      ConfigLang.set_int initState "x" 5 :=
  ⟨(C9_setitem_int_only initState "x" (.str "a")).1 rfl,
   (C9_setitem_int_only initState "x" (.int 5)).2 rfl⟩


/-! ### Lexing the serializer's output -/

/-- Running the lexer over a concatenation composes. -/
theorem lexFold_append (a b : List Char) (st : LexSt) :
    lexFold st (a ++ b) =
      match lexFold st a with
      | .error e => .error e
      | .ok st2 => lexFold st2 b := by
  induction a generalizing st with
  | nil => simp [lexFold]
  | cons c rest ih =>
      rw [List.cons_append, lexFold, lexFold]
      rcases h : lexStep st c with e | st2
      · rfl
      · exact ih st2

/-- One successful lexer step advances the fold. -/
theorem lexFold_cons_ok {st st2 : LexSt} {c : Char} (cs : List Char)
    (h : lexStep st c = .ok st2) : lexFold st (c :: cs) = lexFold st2 cs := by
  rw [lexFold]
  rcases h2 : lexStep st c with e | st3
  · rw [h2] at h
    cases h
  · rw [h2] at h
    injection h with h3
    rw [h3]

/-- A successfully lexed prefix advances the fold. -/
theorem lexFold_append_ok {st st2 : LexSt} {a : List Char} (b : List Char)
    (h : lexFold st a = .ok st2) : lexFold st (a ++ b) = lexFold st2 b := by
  rw [lexFold_append]
  rcases h2 : lexFold st a with e | st3
  · rw [h2] at h
    cases h
  · rw [h2] at h
    injection h with h3
    rw [h3]

theorem foldDigits_cons (v : Nat) (c : Char) (cs : List Char) :
    foldDigits v (c :: cs) = foldDigits (v * 10 + digitVal c) cs := rfl

/-- The ten digit characters and their values. -/
theorem digitVal_digitChar (d : Nat) (hd : d < 10) :
    digitVal (digitChar d) = d := by
  interval_cases d <;> rfl

/-- A digit character starts number mode from the token boundary. -/
theorem stepNormal_digitChar (toks : List Token) (d : Nat) (hd : d < 10) :
    stepNormal toks (digitChar d) = .ok ⟨toks, .inNum false d⟩ := by
  interval_cases d <;> rfl

/-- A digit character extends number mode. -/
theorem lexStep_inNum_digitChar (toks : List Token) (neg : Bool) (v d : Nat)
    (hd : d < 10) :
    lexStep ⟨toks, .inNum neg v⟩ (digitChar d) =
      .ok ⟨toks, .inNum neg (v * 10 + d)⟩ := by
  interval_cases d <;> rfl

/-- A digit character after a minus sign starts negative number mode. -/
theorem lexStep_afterMinus_digitChar (toks : List Token) (d : Nat)
    (hd : d < 10) :
    lexStep ⟨toks, .afterMinus⟩ (digitChar d) =
      .ok ⟨toks, .inNum true d⟩ := by
  interval_cases d <;> rfl

/-- Number mode accumulates a digit list by `foldDigits`. -/
theorem lexFold_digitList (ds : List Char) (toks : List Token) (neg : Bool)
    (v : Nat) (h : DigitList ds) :
    lexFold ⟨toks, .inNum neg v⟩ ds =
      .ok ⟨toks, .inNum neg (foldDigits v ds)⟩ := by
  induction ds generalizing v with
  | nil => rfl
  | cons c rest ih =>
      obtain ⟨d, hd, rfl⟩ := h c (List.mem_cons_self c rest)
      rw [lexFold_cons_ok rest (lexStep_inNum_digitChar toks neg v d hd),
        ih _ (fun c2 hc2 => h c2 (List.mem_cons_of_mem _ hc2)),
        foldDigits_cons, digitVal_digitChar d hd]

/-- The digits of a rendered natural number are digit characters. -/
theorem renderNatRev_digitList (n : Nat) : DigitList (renderNatRev n) := by
  induction n using Nat.strong_induction_on with
  | _ n ih =>
      rcases n with _ | m
      · intro c hc
        rw [renderNatRev] at hc
        cases hc
      · intro c hc
        rw [renderNatRev] at hc
        rcases List.mem_cons.mp hc with h1 | h2
        · exact ⟨(m + 1) % 10, Nat.mod_lt _ (by norm_num), h1⟩
        · exact ih ((m + 1) / 10)
            (Nat.div_lt_self (Nat.succ_pos m) (by norm_num)) c h2

/-- Little-endian rendering round-trips through `valRev`. -/
theorem valRev_renderNatRev (n : Nat) : valRev (renderNatRev n) = n := by
  induction n using Nat.strong_induction_on with
  | _ n ih =>
      rcases n with _ | m
      · rw [renderNatRev]
        rfl
      · rw [renderNatRev, valRev,
          ih ((m + 1) / 10) (Nat.div_lt_self (Nat.succ_pos m) (by norm_num)),
          digitVal_digitChar _ (Nat.mod_lt _ (by norm_num))]
        omega

theorem foldDigits_append (v : Nat) (a b : List Char) :
    foldDigits v (a ++ b) = foldDigits (foldDigits v a) b := by
  induction a generalizing v with
  | nil => rfl
  | cons c rest ih => rw [List.cons_append, foldDigits_cons, foldDigits_cons, ih]

theorem foldDigits_reverse (l : List Char) (v : Nat) :
    foldDigits v l.reverse = v * 10 ^ l.length + valRev l := by
  induction l generalizing v with
  | nil =>
      rw [List.reverse_nil]
      show v = v * 10 ^ 0 + valRev []
      have hv : valRev [] = 0 := rfl
      rw [hv]
      ring
  | cons c t ih =>
      rw [List.reverse_cons, foldDigits_append, ih]
      have h1 : ∀ x : Nat, foldDigits x [c] = x * 10 + digitVal c :=
        fun x => rfl
      rw [h1, valRev, List.length_cons, pow_succ]
      ring

/-- Big-endian digit accumulation inverts decimal rendering. -/
theorem foldDigits_renderNat (n : Nat) : foldDigits 0 (renderNat n) = n := by
  by_cases h : n = 0
  · subst h
    rfl
  · rw [renderNat, if_neg h, foldDigits_reverse, valRev_renderNatRev]
    simp

/-- The rendering of a natural number is a nonempty digit list. -/
theorem renderNat_digitList (n : Nat) :
    DigitList (renderNat n) ∧ renderNat n ≠ [] := by
  by_cases h : n = 0
  · subst h
    constructor
    · intro c hc
      rw [renderNat] at hc
      simp at hc
      exact ⟨0, by norm_num, by rw [hc]; rfl⟩
    · rw [renderNat]
      simp
  · rw [renderNat, if_neg h]
    constructor
    · intro c hc
      exact renderNatRev_digitList n c (List.mem_reverse.mp hc)
    · intro hemp
      have hrev : renderNatRev n = [] := by
        have h2 := congrArg List.reverse hemp
        simpa using h2
      rcases n with _ | m
      · exact h rfl
      · rw [renderNatRev] at hrev
        cases hrev

/-- Lexing a rendered natural number from the token boundary. -/
theorem lexFold_renderNat (toks : List Token) (n : Nat) :
    lexFold ⟨toks, .normal⟩ (renderNat n) = .ok ⟨toks, .inNum false n⟩ := by
  obtain ⟨hdl, hne⟩ := renderNat_digitList n
  rcases hcons : renderNat n with _ | ⟨c, cs⟩
  · exact absurd hcons hne
  · rw [hcons] at hdl
    obtain ⟨d, hd, rfl⟩ := hdl _ (List.mem_cons_self _ _)
    have hfd : foldDigits d cs = n := by
      have h0 : foldDigits 0 (digitChar d :: cs) = n := by
        rw [← hcons, foldDigits_renderNat]
      rw [foldDigits_cons, digitVal_digitChar d hd] at h0
      simpa using h0
    rw [lexFold_cons_ok cs
        (show lexStep ⟨toks, .normal⟩ (digitChar d) =
            .ok ⟨toks, .inNum false d⟩ from stepNormal_digitChar toks d hd),
      lexFold_digitList cs toks false d
        (fun c2 hc2 => hdl c2 (List.mem_cons_of_mem _ hc2)), hfd]

/-- Lexing a rendered natural number after a minus sign. -/
theorem lexFold_renderNat_neg (toks : List Token) (n : Nat) :
    lexFold ⟨toks, .afterMinus⟩ (renderNat n) = .ok ⟨toks, .inNum true n⟩ := by
  obtain ⟨hdl, hne⟩ := renderNat_digitList n
  rcases hcons : renderNat n with _ | ⟨c, cs⟩
  · exact absurd hcons hne
  · rw [hcons] at hdl
    obtain ⟨d, hd, rfl⟩ := hdl _ (List.mem_cons_self _ _)
    have hfd : foldDigits d cs = n := by
      have h0 : foldDigits 0 (digitChar d :: cs) = n := by
        rw [← hcons, foldDigits_renderNat]
      rw [foldDigits_cons, digitVal_digitChar d hd] at h0
      simpa using h0
    rw [lexFold_cons_ok cs (lexStep_afterMinus_digitChar toks d hd),
      lexFold_digitList cs toks true d
        (fun c2 hc2 => hdl c2 (List.mem_cons_of_mem _ hc2)), hfd]

/-- Lexing a rendered integer followed by a newline emits one integer
literal token. -/
theorem lexFold_renderInt_newline (toks : List Token) (i : Int) :
    lexFold ⟨toks, .normal⟩ (renderInt i ++ ['\n']) =
      .ok ⟨toks ++ [Token.intLit i], .normal⟩ := by
  by_cases h : i < 0
  · unfold renderInt
    rw [if_pos h, List.cons_append,
      lexFold_cons_ok _
        (show lexStep ⟨toks, .normal⟩ '-' = .ok ⟨toks, .afterMinus⟩ from rfl),
      lexFold_append_ok _ (lexFold_renderNat_neg toks (-i).toNat)]
    have hflush : lexFold ⟨toks, .inNum true (-i).toNat⟩ ['\n'] =
        .ok ⟨toks ++ [numToken true (-i).toNat], .normal⟩ := rfl
    rw [hflush]
    have hnum : numToken true (-i).toNat = Token.intLit i := by
      show Token.intLit (-((-i).toNat : Int)) = Token.intLit i
      rw [Int.toNat_of_nonneg (by omega), neg_neg]
    rw [hnum]
  · unfold renderInt
    rw [if_neg h,
      lexFold_append_ok _ (lexFold_renderNat toks i.toNat)]
    have hflush : lexFold ⟨toks, .inNum false i.toNat⟩ ['\n'] =
        .ok ⟨toks ++ [numToken false i.toNat], .normal⟩ := rfl
    rw [hflush]
    have hnum : numToken false i.toNat = Token.intLit i := by
      show Token.intLit ((i.toNat : Int)) = Token.intLit i
      rw [Int.toNat_of_nonneg (by omega)]
    rw [hnum]

/-- Whitespace characters are exactly the four listed ones. -/
theorem isWS_elim {c : Char} (h : isWS c = true) :
    c = ' ' ∨ c = '\t' ∨ c = '\n' ∨ c = '\r' := by
  simpa [isWS, or_assoc] using h

/-- An identifier-start character is not whitespace. -/
theorem identStart_not_ws {c : Char} (h : isIdentStart c = true) :
    isWS c = false := by
  cases hw : isWS c
  · rfl
  · rcases isWS_elim hw with h1 | h1 | h1 | h1 <;> subst h1 <;>
      exact absurd h (by decide)

/-- Identifier characters extend identifier mode. -/
theorem lexFold_identBody (cs : List Char) (toks : List Token)
    (acc : List Char) (h : cs.all isIdentChar = true) :
    lexFold ⟨toks, .inIdent acc⟩ cs = .ok ⟨toks, .inIdent (acc ++ cs)⟩ := by
  induction cs generalizing acc with
  | nil => simp [lexFold]
  | cons c rest ih =>
      rw [List.all_cons, Bool.and_eq_true] at h
      have hstep : lexStep ⟨toks, .inIdent acc⟩ c =
          .ok ⟨toks, .inIdent (acc ++ [c])⟩ := by
        simp [lexStep, h.1]
      rw [lexFold_cons_ok _ hstep, ih _ h.2, List.append_assoc]
      rfl

/-- Lexing a valid identifier from the token boundary fills identifier
mode with exactly its characters. -/
theorem lexFold_name (toks : List Token) (name : String)
    (hv : validIdent name = true) :
    lexFold ⟨toks, .normal⟩ name.data = .ok ⟨toks, .inIdent name.data⟩ := by
  rcases hd : name.data with _ | ⟨c, cs⟩
  · rw [validIdent, hd] at hv
    cases hv
  · rw [validIdent, hd, validIdentChars, Bool.and_eq_true] at hv
    have hstep : lexStep ⟨toks, .normal⟩ c = .ok ⟨toks, .inIdent [c]⟩ := by
      show stepNormal toks c = _
      simp [stepNormal, identStart_not_ws hv.1, hv.1]
    rw [lexFold_cons_ok _ hstep, lexFold_identBody cs toks [c] hv.2]
    rfl

/-- A non-keyword identifier lexeme becomes an identifier token. -/
theorem keywordOrIdent_not_kw (s : String) (h : isKeyword s = false) :
    keywordOrIdent s = .ident s := by
  have h2 : ¬(s = "set") ∧ ¬(s = "const") ∧ ¬(s = "if") := by
    simpa [isKeyword, and_assoc] using h
  unfold keywordOrIdent
  rw [if_neg h2.1, if_neg h2.2.1, if_neg h2.2.2]

/-- The ` = ` chunk flushes the pending identifier and emits `=`. -/
theorem lexFold_assign_op (toks : List Token) (acc : List Char) :
    lexFold ⟨toks, .inIdent acc⟩ ((" = " : String).data) =
      .ok ⟨toks ++ [identToken acc] ++ [Token.opAssign], .normal⟩ := rfl

/-- The `set ` chunk emits the `set` keyword. -/
theorem lexFold_chunk_set (toks : List Token) :
    lexFold ⟨toks, .normal⟩ (("set " : String).data) =
      .ok ⟨toks ++ [Token.kwSet], .normal⟩ := rfl

/-- The `const set ` chunk emits the two keywords. -/
theorem lexFold_chunk_const_set (toks : List Token) :
    lexFold ⟨toks, .normal⟩ (("const set " : String).data) =
      .ok ⟨toks ++ [Token.kwConst] ++ [Token.kwSet], .normal⟩ := rfl

/-- Escaped string content is accumulated verbatim by string mode. -/
theorem lexFold_escapeChars (cs : List Char) (toks : List Token)
    (acc : List Char) (h : cs.all (fun c => c != '\n') = true) :
    lexFold ⟨toks, .inStr acc⟩ (escapeChars cs) =
      .ok ⟨toks, .inStr (acc ++ cs)⟩ := by
  induction cs generalizing acc with
  | nil => simp [escapeChars, lexFold]
  | cons c rest ih =>
      rw [List.all_cons, Bool.and_eq_true] at h
      rw [escapeChars]
      by_cases hq : c = '"' ∨ c = '\\'
      · have he : escapeChar c = ['\\', c] := by
          unfold escapeChar
          rcases hq with h1 | h1 <;> subst h1 <;> rfl
        rw [he]
        simp only [List.cons_append, List.nil_append]
        rw [lexFold_cons_ok _
          (show lexStep ⟨toks, .inStr acc⟩ '\\' = .ok ⟨toks, .inStrEsc acc⟩
            from rfl)]
        have hesc : lexStep ⟨toks, .inStrEsc acc⟩ c =
            .ok ⟨toks, .inStr (acc ++ [c])⟩ := by
          rcases hq with h1 | h1 <;> subst h1 <;> rfl
        rw [lexFold_cons_ok _ hesc, ih _ h.2, List.append_assoc]
        rfl
      · push_neg at hq
        have he : escapeChar c = [c] := by
          simp [escapeChar, hq.1, hq.2]
        have hstep : lexStep ⟨toks, .inStr acc⟩ c =
            .ok ⟨toks, .inStr (acc ++ [c])⟩ := by
          show (if c = '"' then _ else if c = '\\' then _
            else if c = '\n' then _ else _) = _
          rw [if_neg hq.1, if_neg hq.2, if_neg (by simpa using h.1)]
        rw [he]
        simp only [List.cons_append, List.nil_append]
        rw [lexFold_cons_ok _ hstep, ih _ h.2, List.append_assoc]
        rfl

/-- Lexing a rendered value followed by a newline emits one literal
token. -/
theorem lexFold_renderValue_newline (toks : List Token) (v : Value)
    (hv : valueOK v = true) :
    lexFold ⟨toks, .normal⟩ (renderValue v ++ ['\n']) =
      .ok ⟨toks ++ [valueToken v], .normal⟩ := by
  cases v with
  | int n => exact lexFold_renderInt_newline toks n
  | str s =>
      unfold renderValue
      rw [List.cons_append,
        lexFold_cons_ok _
          (show lexStep ⟨toks, .normal⟩ '"' = .ok ⟨toks, .inStr []⟩ from rfl),
        List.append_assoc,
        lexFold_append_ok _ (lexFold_escapeChars s.data toks []
          (by simpa [valueOK, strValueOK] using hv)),
        show ([] : List Char) ++ s.data = s.data from List.nil_append _,
        show (['"'] ++ ['\n'] : List Char) = '"' :: ['\n'] from rfl,
        lexFold_cons_ok _
          (show lexStep ⟨toks, .inStr s.data⟩ '"' =
            .ok ⟨toks ++ [Token.strLit (String.mk s.data)], .normal⟩ from rfl),
        show lexFold ⟨toks ++ [Token.strLit (String.mk s.data)], .normal⟩
            ['\n'] =
          .ok ⟨toks ++ [Token.strLit (String.mk s.data)], .normal⟩ from rfl,
        strMkData]
      rfl

/-- Lexing one serialized line from the token boundary emits exactly that
line's tokens. -/
theorem lexFold_renderEntry (toks : List Token) (e : EnvEntry)
    (h : entryOK e = true) :
    lexFold ⟨toks, .normal⟩ (renderEntry e) =
      .ok ⟨toks ++ entryToks e, .normal⟩ := by
  have h3 : (validIdent e.name = true ∧ isKeyword e.name = false) ∧
      valueOK e.value = true := by
    simpa [entryOK, Bool.and_eq_true, Bool.not_eq_true'] using h
  obtain ⟨⟨hv, hk⟩, hval⟩ := h3
  have hident : identToken e.name.data = Token.ident e.name := by
    unfold identToken
    rw [strMkData]
    exact keywordOrIdent_not_kw e.name hk
  unfold renderEntry
  cases hc : e.isConst with
  | false =>
      simp only [Bool.false_eq_true, if_false, List.append_assoc]
      rw [lexFold_append_ok _ (lexFold_chunk_set toks),
        lexFold_append_ok _ (lexFold_name _ e.name hv),
        lexFold_append_ok _ (lexFold_assign_op _ e.name.data),
        lexFold_renderValue_newline _ e.value hval, hident]
      simp [entryToks, hc, List.append_assoc]
  | true =>
      simp only [if_true, List.append_assoc]
      rw [lexFold_append_ok _ (lexFold_chunk_const_set toks),
        lexFold_append_ok _ (lexFold_name _ e.name hv),
        lexFold_append_ok _ (lexFold_assign_op _ e.name.data),
        lexFold_renderValue_newline _ e.value hval, hident]
      simp [entryToks, hc, List.append_assoc]

/-- Lexing a whole serialized environment emits the lines' tokens. -/
theorem lexFold_render (env : Env) (toks : List Token)
    (h : ∀ e ∈ env, entryOK e = true) :
    lexFold ⟨toks, .normal⟩ (render env) =
      .ok ⟨toks ++ envToks env, .normal⟩ := by
  induction env generalizing toks with
  | nil => simp [render, lexFold, envToks]
  | cons e rest ih =>
      rw [show render (e :: rest) = renderEntry e ++ render rest from rfl,
        lexFold_append_ok _
          (lexFold_renderEntry toks e (h e (List.mem_cons_self _ _))),
        ih _ (fun e2 he2 => h e2 (List.mem_cons_of_mem _ he2))]
      rw [show envToks (e :: rest) = entryToks e ++ envToks rest from rfl]
      simp [List.append_assoc]

/-- Tokenizing the serializer's output yields the lines' tokens. -/
theorem tokenize_render (env : Env) (h : ∀ e ∈ env, entryOK e = true) :
    tokenize (String.mk (render env)) = .ok (envToks env) := by
  unfold tokenize
  rw [show (String.mk (render env)).data = render env from rfl,
    lexFold_render env [] h]
  rfl

/-! ### Parsing and executing the serialized lines -/

/-- One non-const serialized line parses to its assignment. -/
theorem parseStmts_set_line (k : Nat) (x : String) (v : Value)
    (rest : List Token) :
    parseStmts (k + 1 + 1)
        (Token.kwSet :: .ident x :: .opAssign :: valueToken v :: rest) =
      (match parseStmts (k + 1) rest with
        | .error e2 => .error e2
        | .ok (ss, r2) => .ok (.assign x false (exprOfValue v) :: ss, r2)) := by
  cases v <;> rfl

/-- One const serialized line parses to its assignment. -/
theorem parseStmts_const_line (k : Nat) (x : String) (v : Value)
    (rest : List Token) :
    parseStmts (k + 1 + 1)
        (Token.kwConst :: .kwSet :: .ident x :: .opAssign ::
          valueToken v :: rest) =
      (match parseStmts (k + 1) rest with
        | .error e2 => .error e2
        | .ok (ss, r2) => .ok (.assign x true (exprOfValue v) :: ss, r2)) := by
  cases v <;> rfl

/-- Parsing the serialized lines with enough fuel yields the assignment
statements and consumes all tokens. -/
theorem parseStmts_envToks (env : Env) (f : Nat) :
    parseStmts (env.length + f + 1) (envToks env) =
      .ok (assignStmts env, []) := by
  induction env generalizing f with
  | nil => rfl
  | cons e rest ih =>
      have hlen : (e :: rest).length + f + 1 = rest.length + f + 1 + 1 := by
        rw [List.length_cons]
        omega
      rw [hlen, show envToks (e :: rest) = entryToks e ++ envToks rest from rfl]
      have hrhs : assignStmts (e :: rest) =
          Stmt.assign e.name e.isConst (exprOfValue e.value)
            :: assignStmts rest := rfl
      cases hc : e.isConst with
      | false =>
          have htoks : entryToks e ++ envToks rest =
              Token.kwSet :: .ident e.name :: .opAssign ::
                valueToken e.value :: envToks rest := by
            simp [entryToks, hc]
          rw [htoks, parseStmts_set_line (rest.length + f) e.name e.value
            (envToks rest), ih f, hrhs, hc]
      | true =>
          have htoks : entryToks e ++ envToks rest =
              Token.kwConst :: .kwSet :: .ident e.name :: .opAssign ::
                valueToken e.value :: envToks rest := by
            simp [entryToks, hc]
          rw [htoks, parseStmts_const_line (rest.length + f) e.name e.value
            (envToks rest), ih f, hrhs, hc]

/-- Each serialized line contributes at least one token. -/
theorem envToks_length (env : Env) : env.length ≤ (envToks env).length := by
  induction env with
  | nil => simp [envToks]
  | cons e rest ih =>
      rw [show envToks (e :: rest) = entryToks e ++ envToks rest from rfl,
        List.length_append, List.length_cons]
      have h4 : 1 ≤ (entryToks e).length := by
        cases hc : e.isConst <;> simp [entryToks, hc]
      omega

/-- The whole serialized program parses to the assignment statements. -/
theorem parseProgram_envToks (env : Env) :
    parseProgram (envToks env) = .ok (assignStmts env) := by
  unfold parseProgram
  have hge : env.length ≤ (envToks env).length := envToks_length env
  have hf : (envToks env).length + 1 =
      env.length + ((envToks env).length - env.length) + 1 := by
    omega
  rw [hf, parseStmts_envToks env _]

/-- Unfolding the statement-sequence evaluator over a cons cell. -/
theorem execStmts_cons_eq (env : Env) (s : Stmt) (rest : List Stmt) :
    execStmts env (s :: rest) =
      (match execStmt env s with
        | (env2, none) => execStmts env2 rest
        | (env2, some e) => (env2, some e)) := rfl

/-- Lookup fails exactly when no entry bears the name. -/
theorem lookupVar_eq_none (env : Env) (x : String)
    (h : ∀ e ∈ env, e.name ≠ x) : env.lookupVar x = none := by
  unfold Env.lookupVar
  rw [List.find?_eq_none]
  intro e he
  simpa using h e he

/-- Executing the assignment statements of serialized entries with fresh
names appends them in order. -/
theorem execStmts_assign (tail : Env) (pre : Env)
    (hnodup : ((pre ++ tail).map (fun e => e.name)).Nodup) :
    execStmts pre (assignStmts tail) = (pre ++ tail, none) := by
  induction tail generalizing pre with
  | nil => simp [assignStmts, execStmts]
  | cons e rest ih =>
      have hfresh : ∀ a ∈ pre, a.name ≠ e.name := by
        intro a ha heq
        have h1 : ((pre.map (fun x => x.name)) ++
            ((e :: rest).map (fun x => x.name))).Nodup := by
          rw [← List.map_append]
          exact hnodup
        have h2 := (List.nodup_append.mp h1).2.2
        exact h2 (List.mem_map_of_mem _ ha)
          (by rw [List.map_cons, heq]; exact List.mem_cons_self _ _)
      have hnone : pre.lookupVar e.name = none := lookupVar_eq_none _ _ hfresh
      have h2 : assignLoad pre e.name e.isConst e.value =
          .ok (pre ++ [⟨e.name, e.value, e.isConst⟩]) := by
        unfold assignLoad
        rw [hnone]
      have hstmt : execStmt pre
          (.assign e.name e.isConst (exprOfValue e.value)) =
          (pre ++ [⟨e.name, e.value, e.isConst⟩], none) := by
        cases hv : e.value with
        | int n =>
            rw [hv] at h2
            rw [show execStmt pre
                (.assign e.name e.isConst (exprOfValue (.int n))) =
              (match assignLoad pre e.name e.isConst (.int n) with
                | .error err => (pre, some err)
                | .ok env2 => (env2, none)) from rfl, h2]
        | str s =>
            rw [hv] at h2
            rw [show execStmt pre
                (.assign e.name e.isConst (exprOfValue (.str s))) =
              (match assignLoad pre e.name e.isConst (.str s) with
                | .error err => (pre, some err)
                | .ok env2 => (env2, none)) from rfl, h2]
      rw [show assignStmts (e :: rest) =
          Stmt.assign e.name e.isConst (exprOfValue e.value)
            :: assignStmts rest from rfl,
        execStmts_cons_eq, hstmt]
      show execStmts (pre ++ [⟨e.name, e.value, e.isConst⟩])
          (assignStmts rest) = _
      have hee : (⟨e.name, e.value, e.isConst⟩ : EnvEntry) = e := rfl
      rw [hee, ih (pre ++ [e]) (by rw [List.append_assoc]; exact hnodup)]
      rw [List.append_assoc]
      rfl

/-- Successful tokenization fixes the first stage of a load. -/
theorem cfg_load_string_eq (st : EngineState) (code : String)
    (toks : List Token) (h : tokenize code = .ok toks) :
    cfg_load_string st code =
      (match parseProgram toks with
        | .error _ =>
            (engineStatus .parseError, { st with lastError := "Parse error" })
        | .ok stmts =>
            match execStmts st.env stmts with
            | (env2, none) => (ERR_CFG_OK, { env := env2, lastError := "" })
            | (env2, some e2) =>
                (engineStatus e2, { env := env2, lastError := "Eval error" })) := by
  unfold cfg_load_string
  rw [h]

/-- The round trip for a well-formed environment: loading the serializer's
output into a fresh instance rebuilds exactly the same environment. -/
theorem load_render_of_envOK (env : Env) (h : EnvOK env) :
    cfg_load_string initState (String.mk (render env)) =
      (ERR_CFG_OK, ⟨env, ""⟩) := by
  obtain ⟨hentries, hnodup⟩ := h
  rw [cfg_load_string_eq initState _ (envToks env)
      (tokenize_render env hentries),
    parseProgram_envToks env]
  show (match execStmts initState.env (assignStmts env) with
    | (env2, none) => (ERR_CFG_OK, EngineState.mk env2 "")
    | (env2, some e2) =>
        (engineStatus e2, EngineState.mk env2 "Eval error")) = _
  have hex : execStmts ([] : Env) (assignStmts env) = (env, none) := by
    simpa using execStmts_assign env [] (by simpa using hnodup)
  rw [show initState.env = ([] : Env) from rfl, hex]

/-! ### Lexer soundness: emitted tokens are well formed -/

/-- Appending one well-formed token preserves token well-formedness. -/
theorem tokOK_append (toks : List Token) (t2 : Token)
    (hts : ∀ t ∈ toks, tokOK t = true) (h2 : tokOK t2 = true) :
    ∀ t ∈ toks ++ [t2], tokOK t = true := by
  intro t ht
  rcases List.mem_append.mp ht with h | h
  · exact hts t h
  · simp at h
    subst h
    exact h2

/-- A flushed identifier lexeme yields a well-formed token. -/
theorem tokOK_identToken (acc : List Char) (h : validIdentChars acc = true) :
    tokOK (identToken acc) = true := by
  unfold identToken keywordOrIdent
  split_ifs with h1 h2 h3
  · rfl
  · rfl
  · rfl
  · simp [tokOK, validIdent, isKeyword, h1, h2, h3]
    exact h

/-- A valid identifier lexeme stays valid when extended. -/
theorem validIdentChars_snoc (acc : List Char) (c : Char)
    (h1 : validIdentChars acc = true) (h2 : isIdentChar c = true) :
    validIdentChars (acc ++ [c]) = true := by
  cases acc with
  | nil => cases h1
  | cons a t =>
      rw [validIdentChars, Bool.and_eq_true] at h1
      rw [List.cons_append, validIdentChars, Bool.and_eq_true]
      refine ⟨h1.1, ?_⟩
      rw [List.all_append]
      simp [h1.2, h2]

/-- Token-boundary steps preserve the lexer invariant. -/
theorem stepNormal_sound (toks : List Token) (c : Char) (st2 : LexSt)
    (h : stepNormal toks c = .ok st2)
    (hts : ∀ t ∈ toks, tokOK t = true) :
    (∀ t ∈ st2.toks, tokOK t = true) ∧ modeOK st2.mode := by
  unfold stepNormal at h
  split_ifs at h with h1 h2 h3 h4 h5 h6 h7 h8 h9 h10 h11 <;> cases h
  · exact ⟨hts, trivial⟩
  · refine ⟨hts, ?_⟩
    simp [modeOK, validIdentChars, h2]
  · exact ⟨hts, trivial⟩
  · exact ⟨hts, trivial⟩
  · exact ⟨hts, by simp [modeOK]⟩
  · exact ⟨tokOK_append toks _ hts rfl, trivial⟩
  · exact ⟨tokOK_append toks _ hts rfl, trivial⟩
  · exact ⟨hts, trivial⟩
  · exact ⟨hts, trivial⟩
  · exact ⟨hts, trivial⟩
  · exact ⟨hts, trivial⟩

/-- Every lexer step preserves the invariant. -/
theorem lexStep_sound (toks : List Token) (m : LexMode) (c : Char)
    (st2 : LexSt) (h : lexStep ⟨toks, m⟩ c = .ok st2)
    (hts : ∀ t ∈ toks, tokOK t = true) (hm : modeOK m) :
    (∀ t ∈ st2.toks, tokOK t = true) ∧ modeOK st2.mode := by
  cases m with
  | normal => exact stepNormal_sound toks c st2 h hts
  | inIdent acc =>
      simp only [lexStep] at h
      split_ifs at h with hic
      · cases h
        exact ⟨hts, validIdentChars_snoc acc c hm hic⟩
      · exact stepNormal_sound _ c st2 h
          (tokOK_append toks _ hts (tokOK_identToken acc hm))
  | inNum neg v =>
      simp only [lexStep] at h
      split_ifs at h with hic
      · cases h
        exact ⟨hts, trivial⟩
      · exact stepNormal_sound _ c st2 h (tokOK_append toks _ hts rfl)
  | inStr acc =>
      have hm2 : acc.all (fun x => x != '\n') = true := hm
      simp only [lexStep] at h
      split_ifs at h with h1 h2 h3 <;> cases h
      · refine ⟨tokOK_append toks _ hts ?_, trivial⟩
        simpa [tokOK, strValueOK] using hm2
      · exact ⟨hts, hm⟩
      · show (∀ t ∈ toks, tokOK t = true) ∧
          ((acc ++ [c]).all (fun x => x != '\n')) = true
        refine ⟨hts, ?_⟩
        rw [List.all_append]
        simp [hm2, h3]
  | inStrEsc acc =>
      have hm2 : acc.all (fun x => x != '\n') = true := hm
      simp only [lexStep] at h
      split_ifs at h with h1 <;> cases h
      have hc : c ≠ '\n' := by
        rcases (by simpa using h1 : c = '"' ∨ c = '\\') with h2 | h2 <;>
          subst h2 <;> decide
      show (∀ t ∈ toks, tokOK t = true) ∧
        ((acc ++ [c]).all (fun x => x != '\n')) = true
      refine ⟨hts, ?_⟩
      rw [List.all_append]
      simp [hm2, hc]
  | afterEq =>
      simp only [lexStep] at h
      split_ifs at h with h1
      · cases h
        exact ⟨tokOK_append toks _ hts rfl, trivial⟩
      · exact stepNormal_sound _ c st2 h (tokOK_append toks _ hts rfl)
  | afterLt =>
      simp only [lexStep] at h
      split_ifs at h with h1
      · cases h
        exact ⟨tokOK_append toks _ hts rfl, trivial⟩
      · exact stepNormal_sound _ c st2 h (tokOK_append toks _ hts rfl)
  | afterGt =>
      simp only [lexStep] at h
      split_ifs at h with h1
      · cases h
        exact ⟨tokOK_append toks _ hts rfl, trivial⟩
      · exact stepNormal_sound _ c st2 h (tokOK_append toks _ hts rfl)
  | afterBang =>
      simp only [lexStep] at h
      split_ifs at h with h1 <;> cases h
      exact ⟨tokOK_append toks _ hts rfl, trivial⟩
  | afterMinus =>
      simp only [lexStep] at h
      split_ifs at h with h1 <;> cases h
      exact ⟨hts, trivial⟩

/-- Folding the lexer preserves the invariant. -/
theorem lexFold_sound (cs : List Char) (st st2 : LexSt)
    (h : lexFold st cs = .ok st2)
    (hts : ∀ t ∈ st.toks, tokOK t = true) (hm : modeOK st.mode) :
    (∀ t ∈ st2.toks, tokOK t = true) ∧ modeOK st2.mode := by
  induction cs generalizing st with
  | nil =>
      cases h
      exact ⟨hts, hm⟩
  | cons c rest ih =>
      rw [lexFold] at h
      rcases h2 : lexStep st c with e | st3
      · rw [h2] at h
        cases h
      · rw [h2] at h
        obtain ⟨t3, m3⟩ := st3
        have hs := lexStep_sound st.toks st.mode c ⟨t3, m3⟩
          (by rw [← h2]) hts hm
        exact ih ⟨t3, m3⟩ h hs.1 hs.2

/-- Flushing the final state yields only well-formed tokens. -/
theorem lexFinish_sound (st : LexSt) (ts : List Token)
    (h : lexFinish st = .ok ts)
    (hts : ∀ t ∈ st.toks, tokOK t = true) (hm : modeOK st.mode) :
    ∀ t ∈ ts, tokOK t = true := by
  obtain ⟨toks, m⟩ := st
  cases m <;> simp only [lexFinish] at h <;> cases h
  · exact hts
  · exact tokOK_append toks _ hts (tokOK_identToken _ hm)
  · exact tokOK_append toks _ hts rfl
  · exact tokOK_append toks _ hts rfl
  · exact tokOK_append toks _ hts rfl
  · exact tokOK_append toks _ hts rfl

/-- The tokenizer emits only well-formed tokens. -/
theorem tokenize_sound (code : String) (ts : List Token)
    (h : tokenize code = .ok ts) : ∀ t ∈ ts, tokOK t = true := by
  unfold tokenize at h
  rcases h2 : lexFold ⟨[], .normal⟩ code.data with e | st
  · rw [h2] at h
    cases h
  · rw [h2] at h
    have hs := lexFold_sound code.data ⟨[], .normal⟩ st h2
      (by intro t ht; cases ht) trivial
    exact lexFinish_sound st ts h hs.1 hs.2



theorem parseExpr_sound (ts : List Token) (e : Expr) (r : List Token)
    (h : parseExpr ts = .ok (e, r)) (hts : ∀ t ∈ ts, tokOK t = true) :
    exprOK e = true ∧ ∀ t ∈ r, tokOK t = true := by
  unfold parseExpr at h
  split at h
  · cases h
    exact ⟨rfl, fun t2 ht => hts t2 (List.mem_cons_of_mem _ ht)⟩
  · cases h
    refine ⟨?_, fun t2 ht => hts t2 (List.mem_cons_of_mem _ ht)⟩
    exact hts _ (List.mem_cons_self _ _)
  · cases h
    exact ⟨rfl, fun t2 ht => hts t2 (List.mem_cons_of_mem _ ht)⟩
  · cases h


theorem parseComparison_sound (ts : List Token) (c : Comparison)
    (r : List Token) (h : parseComparison ts = .ok (c, r))
    (hts : ∀ t ∈ ts, tokOK t = true) :
    cmpOK c = true ∧ ∀ t ∈ r, tokOK t = true := by
  unfold parseComparison at h
  split at h
  · cases h
  · rename_i l r1 hpe
    obtain ⟨hl, hr1⟩ := parseExpr_sound ts l r1 hpe hts
    split at h
    · rename_i t1 r2
      split at h
      · rename_i op hop
        split at h
        · cases h
        · rename_i rex rr3 hpe2
          obtain ⟨hre, hr3⟩ := parseExpr_sound r2 rex rr3 hpe2
            (fun t ht => hr1 t (List.mem_cons_of_mem _ ht))
          cases h
          exact ⟨by simp [cmpOK, hl, hre], hr3⟩
      · cases h
    · cases h


theorem parse_sound (fuel : Nat) :
    (∀ ts s r, (∀ t ∈ ts, tokOK t = true) → parseStmt fuel ts = .ok (s, r) →
      stmtOK s = true ∧ ∀ t ∈ r, tokOK t = true) ∧
    (∀ ts ss r, (∀ t ∈ ts, tokOK t = true) → parseStmts fuel ts = .ok (ss, r) →
      stmtsOK ss = true ∧ ∀ t ∈ r, tokOK t = true) := by
  induction fuel with
  | zero =>
      constructor <;> intro ts a r hts h <;> cases h
  | succ f ih =>
      obtain ⟨ihStmt, ihStmts⟩ := ih
      constructor
      · intro ts s r hts h
        rw [parseStmt.eq_def] at h
        split at h
        · cases h
        · rename_i x ts3 hfe
          split at h
          · cases h
          · rename_i e2 r2 hpe
            obtain ⟨he2, hr2⟩ := parseExpr_sound ts3 e2 r2 hpe
              (fun t ht => hts t (by simp [ht]))
            cases h
            refine ⟨?_, hr2⟩
            have hx := hts (.ident x) (by simp)
            simp only [tokOK, Bool.and_eq_true] at hx
            simp [stmtOK, he2, hx.1, hx.2]
        · rename_i x ts3 hfe
          split at h
          · cases h
          · rename_i e2 r2 hpe
            obtain ⟨he2, hr2⟩ := parseExpr_sound ts3 e2 r2 hpe
              (fun t ht => hts t (by simp [ht]))
            cases h
            refine ⟨?_, hr2⟩
            have hx := hts (.ident x) (by simp)
            simp only [tokOK, Bool.and_eq_true] at hx
            simp [stmtOK, he2, hx.1, hx.2]
        · rename_i n ts3 hfe
          have hnf : n = f := Nat.succ.inj hfe.symm
          subst hnf
          split at h
          · cases h
          · rename_i cmp r1 hpc
            obtain ⟨hcmp, hr1⟩ := parseComparison_sound ts3 cmp r1 hpc
              (fun t ht => hts t (by simp [ht]))
            split at h
            · split at h
              · cases h
              · rename_i body r3 hps
                obtain ⟨hbody, hr3⟩ := ihStmts _ body r3
                  (fun t ht => hr1 t (by simp [ht])) hps
                split at h
                · cases h
                  refine ⟨?_, fun t ht => hr3 t (by simp [ht])⟩
                  simp [stmtOK, hcmp, hbody]
                · cases h
            · cases h
        · cases h
      · intro ts ss r hts h
        rw [parseStmts.eq_def] at h
        split at h
        · cases h
        · cases h
          exact ⟨rfl, hts⟩
        · cases h
          exact ⟨rfl, hts⟩
        · rename_i n2 hfe2 hne hnb
          have hnf : n2 = f := Nat.succ.inj hfe2.symm
          subst hnf
          split at h
          · cases h
          · rename_i s1 r1 hp1
            obtain ⟨hs1, hr1⟩ := ihStmt _ s1 r1 hts hp1
            split at h
            · cases h
            · rename_i ss2 r2 hp2
              obtain ⟨hss2, hr2⟩ := ihStmts r1 ss2 r2 hr1 hp2
              cases h
              exact ⟨by simp [stmtsOK, hs1, hss2], hr2⟩


theorem parseProgram_sound (ts : List Token) (ss : List Stmt)
    (h : parseProgram ts = .ok ss) (hts : ∀ t ∈ ts, tokOK t = true) :
    stmtsOK ss = true := by
  unfold parseProgram at h
  split at h
  · cases h
  · rename_i ss2 hps
    cases h
    exact ((parse_sound (ts.length + 1)).2 ts ss [] hts hps).1
  · cases h

theorem lookupVar_mem (env : Env) (x : String) (e : EnvEntry)
    (h : env.lookupVar x = some e) : e ∈ env :=
  List.mem_of_find?_eq_some h

theorem overwrite_names (env : Env) (x : String) (v : Value) (c : Bool) :
    (env.overwrite x v c).map (fun e => e.name) =
      env.map (fun e => e.name) := by
  induction env with
  | nil => rfl
  | cons a rest ih =>
      rw [overwrite_cons, List.map_cons, List.map_cons, ih]
      by_cases ha : a.name = x
      · have hb : (a.name == x) = true := beq_iff_eq.mpr ha
        simp [hb, ha]
      · have hb : (a.name == x) = false := beq_eq_false_iff_ne.mpr ha
        simp [hb]

theorem assignLoad_envOK (env : Env) (x : String) (c : Bool) (v : Value)
    (env2 : Env) (h : assignLoad env x c v = .ok env2) (henv : EnvOK env)
    (hx1 : validIdent x = true) (hx2 : isKeyword x = false)
    (hv : valueOK v = true) : EnvOK env2 := by
  obtain ⟨hent, hnd⟩ := henv
  unfold assignLoad at h
  rcases hl : env.lookupVar x with _ | e2
  · rw [hl] at h
    cases h
    constructor
    · intro e3 he3
      rcases List.mem_append.mp he3 with h4 | h4
      · exact hent e3 h4
      · simp at h4
        subst h4
        simp [entryOK, hx1, hx2, hv]
    · rw [List.map_append, List.nodup_append]
      refine ⟨hnd, List.nodup_singleton _, ?_⟩
      intro a ha hb
      simp at hb
      subst hb
      have h5 := List.find?_eq_none.mp hl
      obtain ⟨e4, he4, hname⟩ := List.mem_map.mp ha
      exact absurd (beq_iff_eq.mpr hname) (by simpa using h5 e4 he4)
  · rw [hl] at h
    have h6 : (if e2.isConst = true then Except.error ErrKind.constViolation
        else Except.ok (env.overwrite x v c)) = Except.ok env2 := h
    split_ifs at h6 with hc2
    cases h6
    constructor
    · intro e3 he3
      obtain ⟨e4, he4, hfe⟩ := List.mem_map.mp he3
      subst hfe
      by_cases hb : (e4.name == x) = true
      · simp only [hb, if_true]
        simp [entryOK, hx1, hx2, hv]
      · simp only [Bool.not_eq_true] at hb
        simp only [hb, Bool.false_eq_true, if_false]
        exact hent e4 he4
    · rw [overwrite_names env x v c]
      exact hnd

theorem evalExpr_valueOK (env : Env) (ex : Expr) (v : Value)
    (h : evalExpr env ex = .ok v) (henv : ∀ e ∈ env, entryOK e = true)
    (hex : exprOK ex = true) : valueOK v = true := by
  cases ex with
  | intLit n =>
      cases h
      rfl
  | strLit s =>
      cases h
      exact hex
  | var x =>
      have h2 : (match env.lookupVar x with
          | some e2 => Except.ok e2.value
          | none => Except.error ErrKind.varNotFound) = Except.ok v := h
      rcases hl : env.lookupVar x with _ | e2
      · rw [hl] at h2
        cases h2
      · rw [hl] at h2
        cases h2
        have hm := lookupVar_mem env x e2 hl
        have h6 := henv e2 hm
        simp only [entryOK, Bool.and_eq_true] at h6
        exact h6.2

mutual

theorem execStmt_envOK (env : Env) (s : Stmt) (henv : EnvOK env)
    (hs : stmtOK s = true) : EnvOK (execStmt env s).1 := by
  cases s with
  | assign x c vexp =>
      rw [show execStmt env (.assign x c vexp) =
        (match evalExpr env vexp with
          | .error e => (env, some e)
          | .ok v => (match assignLoad env x c v with
              | .error e => (env, some e)
              | .ok env2 => (env2, none))) from rfl]
      rcases he : evalExpr env vexp with e | v
      · exact henv
      · show EnvOK (match assignLoad env x c v with
          | .error e => (env, some e)
          | .ok env2 => (env2, none)).1
        rcases ha : assignLoad env x c v with e2 | env2
        · exact henv
        · simp only [stmtOK, Bool.and_eq_true, Bool.not_eq_true'] at hs
          exact assignLoad_envOK env x c v env2 ha henv hs.1.1 hs.1.2
            (evalExpr_valueOK env vexp v he henv.1 hs.2)
  | cond cmp body =>
      rw [show execStmt env (.cond cmp body) =
        (match evalCmp env cmp with
          | .error e => (env, some e)
          | .ok true => execStmts env body
          | .ok false => (env, none)) from rfl]
      rcases hc : evalCmp env cmp with e | b
      · exact henv
      · cases b
        · exact henv
        · have hsb : stmtsOK body = true := by
            simp only [stmtOK, Bool.and_eq_true] at hs
            exact hs.2
          exact execStmts_envOK env body henv hsb

theorem execStmts_envOK (env : Env) (ss : List Stmt) (henv : EnvOK env)
    (hs : stmtsOK ss = true) : EnvOK (execStmts env ss).1 := by
  cases ss with
  | nil => exact henv
  | cons s rest =>
      rw [execStmts_cons_eq]
      rcases hx : execStmt env s with ⟨env2, err⟩
      simp only [stmtsOK, Bool.and_eq_true] at hs
      have h1 : EnvOK env2 := by
        have h3 := execStmt_envOK env s henv hs.1
        rw [hx] at h3
        exact h3
      cases err with
      | none => exact execStmts_envOK env2 rest h1 hs.2
      | some e => exact h1

end

theorem cfg_load_string_envOK (st : EngineState) (code : String)
    (h : EnvOK st.env) : EnvOK (cfg_load_string st code).2.env := by
  unfold cfg_load_string
  rcases ht : tokenize code with e | toks
  · exact h
  · show EnvOK (match parseProgram toks with
      | .error a =>
          (engineStatus .parseError, EngineState.mk st.env "Parse error")
      | .ok stmts =>
          match execStmts st.env stmts with
          | (env2, none) => (ERR_CFG_OK, EngineState.mk env2 "")
          | (env2, some e) =>
              (engineStatus e, EngineState.mk env2 "Eval error")).2.env
    rcases hp : parseProgram toks with e2 | stmts
    · exact h
    · show EnvOK (match execStmts st.env stmts with
        | (env2, none) => (ERR_CFG_OK, EngineState.mk env2 "")
        | (env2, some e) =>
            (engineStatus e, EngineState.mk env2 "Eval error")).2.env
      have hsOK : stmtsOK stmts = true :=
        parseProgram_sound toks stmts hp (tokenize_sound code toks ht)
      rcases hx : execStmts st.env stmts with ⟨env2, err⟩
      have h2 : EnvOK env2 := by
        have h3 := execStmts_envOK st.env stmts h hsOK
        rw [hx] at h3
        exact h3
      cases err
      · exact h2
      · exact h2

theorem loadSeq_envOK (codes : List String) (st st2 : EngineState)
    (h : loadSeq st codes = some st2) (h0 : EnvOK st.env) :
    EnvOK st2.env := by
  induction codes generalizing st with
  | nil =>
      cases h
      exact h0
  | cons code rest ih =>
      unfold loadSeq at h
      rcases hc : cfg_load_string st code with ⟨status, st3⟩
      rw [hc] at h
      have h2 : (if status = ERR_CFG_OK then loadSeq st3 rest else none) =
          some st2 := h
      split_ifs at h2 with hst
      have h3 : EnvOK st3.env := by
        have h4 := cfg_load_string_envOK st code h0
        rw [hc] at h4
        exact h4
      exact ih st3 h2 h3

theorem reachable_envOK (env : Env) (h : Reachable env) : EnvOK env := by
  obtain ⟨codes, st, hseq, henv⟩ := h
  have h0 : EnvOK initState.env :=
    ⟨fun e he => absurd he (List.not_mem_nil e), List.nodup_nil⟩
  have h1 := loadSeq_envOK codes initState st hseq h0
  rwa [henv] at h1


/-- C3: for every environment reachable by successful loads from a fresh
instance, parsing and executing the Serializer's rendering against a fresh
empty environment rebuilds an identical name-to-(value, is_const) mapping
in the same insertion order; `save_file` persists exactly that rendering. -/
theorem C3_round_trip (env : Env) (h : Reachable env) :
    cfg_load_string initState (String.mk (render env)) =
      (ERR_CFG_OK, ⟨env, ""⟩) ∧
    ∀ fs p msg, (cfg_save_file fs ⟨env, msg⟩ p).2.1 =
      fsWrite fs p (String.mk (render env)) :=
  ⟨load_render_of_envOK env (reachable_envOK env h),
    fun fs p msg => rfl⟩

/-- C3 witness: the environment reached by loading `set x = 1`. -/
theorem C3_witness :
    cfg_load_string initState (String.mk (render [⟨"x", .int 1, false⟩])) =
      (ERR_CFG_OK, ⟨[⟨"x", .int 1, false⟩], ""⟩) :=
  (C3_round_trip [⟨"x", .int 1, false⟩]
    ⟨["set x = 1"], ⟨[⟨"x", .int 1, false⟩], ""⟩, rfl, rfl⟩).1

end ConfigLangProof

